import Mathlib

/-!
# The dry-run harness of kustomize-controller (`dry-run/main.go`)

The function `main` of `dry-run/main.go` is embedded as a two-thread
transition system.

* Lines 42-118 run while `main` is the only thread the harness has created, so
  they are embedded as one function, `setup`, that returns either a fatal
  outcome (an `os.Exit(1)` was reached) or the local variables that are live
  when the goroutine of line 118 is launched.
* From line 118 on there are two threads, `main` and the goroutine (`bg`).
  Each statement is one step (`stepMain`, `stepBg`); a schedule, a list of
  thread ids, chooses which thread moves next, and nothing moves once the
  process has ended.  A blocking call (`Start`, `WaitForCacheSync`,
  `Reconcile`) is a call step followed by a return step, so that the other
  thread can move while the call is in progress.  The closure of line 118
  shares the variable `ctx` with `main`, which assigns it again at line 133.
* The definition `main env sched` is the run of the Go function `main` under
  the outcomes `env` and the schedule `sched`: its trace and, once the process
  has ended, its exit code.  When the Go function `main` returns the process
  ends with code 0 without waiting for the goroutine.

The startup configuration (the parsed flags, `RUNTIME_NAMESPACE`) and the
outcomes of the external collaborators (`events.NewRecorder`,
`client.GetConfigOrDie`, `ctrl.NewManager`, `SetupWithManager`, the cache and
the reconciler) are the fields of `Env`; every theorem quantifies over them.
The trace records, in order, the calls that `main.go` itself makes.  What a
collaborator does inside a call (its own logging, its own goroutines) is not
part of the trace.

The function `init` of lines 34-40 only registers types with the package
variable `scheme`, which is a constant here.  Not modelled: panics inside
collaborators, `flag.Parse` rejecting the command line, and the exit that
`ctrl.SetupSignalHandler` performs on a second signal.
-/

namespace DryRun

/-! ## Data -/

/-- A Go `error` value that is not nil; a possibly-nil error is `Option Err`. -/
abbrev Err := String

/-- Line 27: `const controllerName`. -/
def controllerName : String := "kustomize-controller"

/-- The thread of control that performs a call: `main`, or the goroutine of
line 118. -/
inductive Tid where
  | main
  | bg
  deriving DecidableEq, Repr

/-- A `context.Context`, by the way it was derived. -/
inductive Ctx where
  /-- The result of `ctrl.SetupSignalHandler()`. -/
  | signalHandler
  /-- The result of `context.WithCancel(parent)`. -/
  | withCancel (parent : Ctx)
  /-- The result of `ctrl.LoggerInto(parent, _)`. -/
  | loggerInto (parent : Ctx)
  deriving DecidableEq, Repr

/-- The test `c.derivesFrom a` holds when `a` is `c` itself or an ancestor of
`c`: cancelling `a` cancels `c`. -/
def Ctx.derivesFrom : Ctx → Ctx → Bool
  | .signalHandler, a => a == .signalHandler
  | .withCancel p, a => a == .withCancel p || p.derivesFrom a
  | .loggerInto p, a => a == .loggerInto p || p.derivesFrom a

/-- The value of `client.Options` after flag parsing. -/
structure ClientOptions where
  raw : String
  deriving DecidableEq, Repr

/-- The value of `logger.Options` after flag parsing. -/
structure LogOptions where
  raw : String
  deriving DecidableEq, Repr

/-- A `*rest.Config`. -/
structure RestConfig where
  id : Nat
  deriving DecidableEq, Repr

/-- A `*runtime.Scheme`. -/
structure Scheme where
  id : Nat
  deriving DecidableEq, Repr

/-- Line 30: the package variable `scheme`. -/
def scheme : Scheme := ⟨0⟩

/-- A `client.Client` handle. -/
structure Client where
  id : Nat
  deriving DecidableEq, Repr

/-- A `*events.Recorder` (the external event recorder). -/
structure Recorder where
  addr : String
  name : String
  deriving DecidableEq, Repr

/-- A `*metrics.Recorder`. -/
structure MetricsRecorder where
  id : Nat
  deriving DecidableEq, Repr

/-- A `logr.Logger`; the only one the harness passes on is the package-level
`ctrl.Log`. -/
inductive Logger where
  | ctrlLog
  deriving DecidableEq, Repr

/-- The fields of `ctrl.Options` that line 84 sets. -/
structure Options where
  Scheme : Scheme
  MetricsBindAddress : String
  LeaderElection : Bool
  Namespace : String
  Logger : Logger
  DryRunClient : Bool
  deriving DecidableEq, Repr

/-- A `ctrl.Manager`, by what its getters return. -/
structure Manager where
  GetClient : Client
  GetScheme : Scheme
  GetEventRecorderFor : Nat
  GetRESTMapper : Nat
  GetCache : Nat
  deriving DecidableEq, Repr

/-- The result of `polling.NewStatusPoller(reader, mapper)`. -/
structure StatusPoller where
  reader : Client
  mapper : Nat
  deriving DecidableEq, Repr

/-- The struct `controllers.KustomizationReconciler` as line 97 fills it. -/
structure Reconciler where
  ControllerName : String
  Client : Client
  Scheme : Scheme
  EventRecorder : Nat
  ExternalEventRecorder : Option Recorder
  MetricsRecorder : MetricsRecorder
  StatusPoller : StatusPoller
  SourcePath : String
  Revision : String
  deriving DecidableEq, Repr

/-- The struct `controllers.KustomizationReconcilerOptions`. -/
structure ReconcilerOptions where
  MaxConcurrentReconciles : Nat
  deriving DecidableEq, Repr

/-- A `ctrl.Request`: the name and namespace of the object to reconcile. -/
structure Request where
  Name : String
  Namespace : String
  deriving DecidableEq, Repr

/-- A `ctrl.Result`. -/
structure Result where
  Requeue : Bool
  RequeueAfter : Nat
  deriving DecidableEq, Repr

/-- The calls made by the harness.  A call of the sequential part carries its
outcome; a blocking call of the concurrent part is a call action and a return
action. -/
inductive Action where
  /-- Line 63: `ctrl.SetLogger(logger.NewLogger(logOptions))`. -/
  | setLogger (o : LogOptions)
  /-- Line 67: `events.NewRecorder(eventsAddr, controllerName)` and its error. -/
  | newRecorder (addr name : String) (err : Option Err)
  /-- Any `setupLog.Error(err, msg)`. -/
  | logError (err : Option Err) (msg : String)
  /-- Any `os.Exit(code)`. -/
  | osExit (code : Nat)
  /-- Lines 75-76: the metrics recorder is created and registered. -/
  | mustRegister (m : MetricsRecorder)
  /-- Line 83: `client.GetConfigOrDie(clientOptions)`; `died` when it exits. -/
  | getConfigOrDie (o : ClientOptions) (died : Bool)
  /-- Line 84: `ctrl.NewManager(restConfig, options)` and its error. -/
  | newManager (cfg : RestConfig) (opts : Options) (err : Option Err)
  /-- Line 109: `c.SetupWithManager(mgr, options)` and its error. -/
  | setupWithManager (c : Reconciler) (mgr : Manager) (o : ReconcilerOptions)
      (err : Option Err)
  /-- Line 117: `ctrl.SetupSignalHandler()`. -/
  | setupSignalHandler
  /-- Line 118: the `go` statement. -/
  | go
  /-- Line 119: the call `mgr.GetCache().Start(ctx)`. -/
  | cacheStart (ctx : Ctx)
  /-- Line 119: `Start` returns. -/
  | cacheStartRet (err : Option Err)
  /-- Line 125: the call `mgr.GetCache().WaitForCacheSync(ctx)`. -/
  | waitForCacheSync (ctx : Ctx)
  /-- Line 125: `WaitForCacheSync` returns. -/
  | waitForCacheSyncRet (ok : Bool)
  /-- Line 134: the call `c.Reconcile(ctx, req)`. -/
  | reconcile (c : Reconciler) (ctx : Ctx) (req : Request)
  /-- Line 134: `Reconcile` returns. -/
  | reconcileRet (res : Result) (err : Option Err)
  /-- Line 135: `cancel()`, with the context it cancels. -/
  | cancel (ctx : Ctx)
  /-- Line 136: `main` returns. -/
  | mainReturn
  deriving DecidableEq, Repr

/-- One entry of the trace: who did what. -/
structure Event where
  tid : Tid
  act : Action
  deriving DecidableEq, Repr

/-- The startup configuration and the outcomes of the external
collaborators. -/
structure Env where
  /-- Flag `--events-addr`. -/
  eventsAddr : String
  /-- Flag `--source-path`. -/
  sourcePath : String
  /-- Flag `--revision`. -/
  revision : String
  /-- Flag `--requeue-dependency`. -/
  requeueDependency : Nat
  /-- Flag `--watch-all-namespaces`. -/
  watchAllNamespaces : Bool
  /-- The flags bound by `clientOptions.BindFlags`. -/
  clientOptions : ClientOptions
  /-- The flags bound by `logOptions.BindFlags`. -/
  logOptions : LogOptions
  /-- The value of `os.Getenv("RUNTIME_NAMESPACE")`. -/
  runtimeNamespace : String
  /-- Outcome of `events.NewRecorder`. -/
  newRecorder : String → String → Except Err Recorder
  /-- Outcome of `metrics.NewRecorder`. -/
  metricsNewRecorder : MetricsRecorder
  /-- Outcome of `client.GetConfigOrDie`; `none` when it exits the process. -/
  getConfigOrDie : ClientOptions → Option RestConfig
  /-- Outcome of `ctrl.NewManager`. -/
  newManager : RestConfig → Options → Except Err Manager
  /-- Outcome of `SetupWithManager`: the error, or nil. -/
  setupWithManager : Reconciler → Manager → ReconcilerOptions → Option Err
  /-- What the cache's `Start` returns, when it returns. -/
  cacheStart : Ctx → Option Err
  /-- What the cache's `WaitForCacheSync` returns. -/
  waitForCacheSync : Ctx → Bool
  /-- What `Reconcile` returns. -/
  reconcile : Reconciler → Ctx → Request → Result × Option Err

/-- The local variables of `main` that are live at line 118 and are not
assigned afterwards. -/
structure Locals where
  mgr : Manager
  c : Reconciler
  /-- The variable `err` of line 84, last assigned at line 109. -/
  err : Option Err
  /-- The context that the function `cancel` of line 117 cancels. -/
  cancelCtx : Ctx
  deriving DecidableEq, Repr

/-- The outcome of lines 42-118. -/
inductive SetupResult where
  /-- An `os.Exit(1)` was reached; the trace ends with it. -/
  | fatal (trace : List Event)
  /-- The goroutine has been launched. -/
  | ready (trace : List Event) (l : Locals)
  deriving Repr

/-- Program counter of `main` from line 125 on. -/
inductive MainPc where
  /-- Line 125, before the call. -/
  | waitCall
  /-- Line 125, inside `WaitForCacheSync`. -/
  | waiting
  /-- Line 126. -/
  | syncFailedLog
  /-- Line 127. -/
  | syncFailedExit
  /-- After the `os.Exit(1)` of line 127. -/
  | exited
  /-- Lines 130-133. -/
  | buildReq
  /-- Line 134, before the call. -/
  | reconcileCall
  /-- Line 134, inside `Reconcile`. -/
  | reconciling
  /-- Line 135. -/
  | cancelCall
  /-- Line 136. -/
  | ret
  /-- After `main` has returned. -/
  | returned
  deriving DecidableEq, Repr

/-- Program counter of the goroutine of lines 118-123. -/
inductive BgPc where
  /-- Line 119, before the call; `ctx` has not been read yet. -/
  | startCall
  /-- Line 119, inside `Start(ctx)`. -/
  | starting (ctx : Ctx)
  /-- Line 120, with the goroutine's own `err`. -/
  | errLog (err : Err)
  /-- Line 121. -/
  | errExit
  /-- After the `os.Exit(1)` of line 121. -/
  | exited
  /-- The function literal has returned. -/
  | finished
  deriving DecidableEq, Repr

/-- The state of the process from line 118 on. -/
structure State where
  mainPc : MainPc
  bgPc : BgPc
  /-- The variable `ctx`, which the closure of line 118 shares with `main`. -/
  ctx : Ctx
  /-- The variable `req` of line 130. -/
  req : Request
  trace : List Event
  /-- The exit code, once the process has ended. -/
  exit : Option Nat
  deriving DecidableEq, Repr

/-- What is observed of a run: the calls made so far and the exit code, if the
process has ended. -/
structure Run where
  trace : List Event
  exit : Option Nat
  deriving DecidableEq, Repr

/-! ## The program -/

/-- Shorthand for an event of `main`. -/
def onMain (a : Action) : Event := ⟨.main, a⟩

/-- Shorthand for an event of the goroutine. -/
def onBg (a : Action) : Event := ⟨.bg, a⟩

/-- Lines 78-81: the namespace to watch. -/
def watchNamespace (env : Env) : String :=
  if !env.watchAllNamespaces then env.runtimeNamespace else ""

/-- Lines 84-91: the options passed to `ctrl.NewManager`. -/
def managerOptions (env : Env) : Options where
  Scheme := scheme
  MetricsBindAddress := "0"
  LeaderElection := false
  Namespace := watchNamespace env
  Logger := .ctrlLog
  DryRunClient := true

/-- Lines 97-107: the reconciler. -/
def mkReconciler (env : Env) (eventRecorder : Option Recorder)
    (metricsRecorder : MetricsRecorder) (mgr : Manager) : Reconciler where
  ControllerName := controllerName
  Client := mgr.GetClient
  Scheme := mgr.GetScheme
  EventRecorder := mgr.GetEventRecorderFor
  ExternalEventRecorder := eventRecorder
  MetricsRecorder := metricsRecorder
  StatusPoller := ⟨mgr.GetClient, mgr.GetRESTMapper⟩
  SourcePath := env.sourcePath
  Revision := env.revision

/-- Lines 75-118, given the trace so far and the variable `eventRecorder`. -/
def setupFrom (env : Env) (tr : List Event) (eventRecorder : Option Recorder) :
    SetupResult :=
  let metricsRecorder := env.metricsNewRecorder
  let tr := tr ++ [onMain (.mustRegister metricsRecorder)]
  match env.getConfigOrDie env.clientOptions with
  | none =>
    .fatal (tr ++ [onMain (.getConfigOrDie env.clientOptions true), onMain (.osExit 1)])
  | some restConfig =>
    let tr := tr ++ [onMain (.getConfigOrDie env.clientOptions false)]
    match env.newManager restConfig (managerOptions env) with
    | .error e =>
      .fatal (tr ++ [onMain (.newManager restConfig (managerOptions env) (some e)),
        onMain (.logError (some e) "unable to start manager"), onMain (.osExit 1)])
    | .ok mgr =>
      let tr := tr ++ [onMain (.newManager restConfig (managerOptions env) none)]
      let c := mkReconciler env eventRecorder metricsRecorder mgr
      let err := env.setupWithManager c mgr ⟨2⟩
      let tr := tr ++ [onMain (.setupWithManager c mgr ⟨2⟩ err)]
      if err.isSome then
        .fatal (tr ++ [onMain (.logError err "unable to create controller"),
          onMain (.osExit 1)])
      else
        let ctx := Ctx.withCancel .signalHandler
        .ready (tr ++ [onMain .setupSignalHandler, onMain .go]) ⟨mgr, c, err, ctx⟩

/-- Lines 42-118. -/
def setup (env : Env) : SetupResult :=
  let tr := [onMain (.setLogger env.logOptions)]
  if env.eventsAddr ≠ "" then
    match env.newRecorder env.eventsAddr controllerName with
    | .error e =>
      .fatal (tr ++ [onMain (.newRecorder env.eventsAddr controllerName (some e)),
        onMain (.logError (some e) "unable to create event recorder"),
        onMain (.osExit 1)])
    | .ok er =>
      setupFrom env (tr ++ [onMain (.newRecorder env.eventsAddr controllerName none)])
        (some er)
  else
    setupFrom env tr none

/-- The state in which the goroutine has just been launched. -/
def State.init (tr : List Event) (l : Locals) : State where
  mainPc := .waitCall
  bgPc := .startCall
  ctx := l.cancelCtx
  req := ⟨"", ""⟩
  trace := tr
  exit := none

/-- One step of `main`, lines 125-136. -/
def stepMain (env : Env) (l : Locals) (s : State) : State :=
  match s.mainPc with
  | .waitCall =>
    { s with mainPc := .waiting, trace := s.trace ++ [onMain (.waitForCacheSync s.ctx)] }
  | .waiting =>
    let ok := env.waitForCacheSync s.ctx
    { s with mainPc := if ok then .buildReq else .syncFailedLog,
             trace := s.trace ++ [onMain (.waitForCacheSyncRet ok)] }
  | .syncFailedLog =>
    { s with mainPc := .syncFailedExit,
             trace := s.trace ++ [onMain (.logError l.err "problem starting cache")] }
  | .syncFailedExit =>
    { s with mainPc := .exited, trace := s.trace ++ [onMain (.osExit 1)], exit := some 1 }
  | .exited => s
  | .buildReq =>
    let req : Request := ⟨"", ""⟩
    let req := { req with Name := "foo" }
    let req := { req with Namespace := "bar" }
    { s with mainPc := .reconcileCall, req := req, ctx := .loggerInto s.ctx }
  | .reconcileCall =>
    { s with mainPc := .reconciling,
             trace := s.trace ++ [onMain (.reconcile l.c s.ctx s.req)] }
  | .reconciling =>
    let r := env.reconcile l.c s.ctx s.req
    { s with mainPc := .cancelCall,
             trace := s.trace ++ [onMain (.reconcileRet r.1 r.2)] }
  | .cancelCall =>
    { s with mainPc := .ret, trace := s.trace ++ [onMain (.cancel l.cancelCtx)] }
  | .ret =>
    { s with mainPc := .returned, trace := s.trace ++ [onMain .mainReturn], exit := some 0 }
  | .returned => s

/-- One step of the goroutine, lines 118-123. -/
def stepBg (env : Env) (s : State) : State :=
  match s.bgPc with
  | .startCall =>
    { s with bgPc := .starting s.ctx, trace := s.trace ++ [onBg (.cacheStart s.ctx)] }
  | .starting ctx =>
    match env.cacheStart ctx with
    | some e =>
      { s with bgPc := .errLog e, trace := s.trace ++ [onBg (.cacheStartRet (some e))] }
    | none =>
      { s with bgPc := .finished, trace := s.trace ++ [onBg (.cacheStartRet none)] }
  | .errLog e =>
    { s with bgPc := .errExit,
             trace := s.trace ++ [onBg (.logError (some e) "problem starting cache")] }
  | .errExit =>
    { s with bgPc := .exited, trace := s.trace ++ [onBg (.osExit 1)], exit := some 1 }
  | .exited => s
  | .finished => s

/-- One step of the process: nothing moves once the process has ended. -/
def step (env : Env) (l : Locals) (t : Tid) (s : State) : State :=
  if s.exit.isSome then s
  else
    match t with
    | .main => stepMain env l s
    | .bg => stepBg env s

/-- The state after the schedule `sched`, from `s`. -/
def exec (env : Env) (l : Locals) (sched : List Tid) (s : State) : State :=
  sched.foldl (fun s t => step env l t s) s

/-- The run of the function `main` (lines 42-136) under the outcomes `env` and
the schedule `sched`. -/
def main (env : Env) (sched : List Tid) : Run :=
  match setup env with
  | .fatal tr => ⟨tr, some 1⟩
  | .ready tr l =>
    let s := exec env l sched (State.init tr l)
    ⟨s.trace, s.exit⟩

/-! ## Vocabulary for traces -/

/-- Holds of an event when it is a call of `Reconcile`. -/
def Event.isReconcile (e : Event) : Bool :=
  match e.act with
  | .reconcile _ _ _ => true
  | _ => false

/-- Holds of an event when it is a return of `Reconcile`. -/
def Event.isReconcileRet (e : Event) : Bool :=
  match e.act with
  | .reconcileRet _ _ => true
  | _ => false

/-- Holds of an event when it is a call of `WaitForCacheSync`. -/
def Event.isWait (e : Event) : Bool :=
  match e.act with
  | .waitForCacheSync _ => true
  | _ => false

/-- Holds of an event when it is `WaitForCacheSync` returning `ok`. -/
def Event.isWaitRet (ok : Bool) (e : Event) : Bool :=
  match e.act with
  | .waitForCacheSyncRet b => b == ok
  | _ => false

/-- Holds of an event when it is a call of the cache's `Start`. -/
def Event.isCacheStart (e : Event) : Bool :=
  match e.act with
  | .cacheStart _ => true
  | _ => false

/-- Holds of an event when it is the cache's `Start` returning. -/
def Event.isCacheStartRet (e : Event) : Bool :=
  match e.act with
  | .cacheStartRet _ => true
  | _ => false

/-- Holds of an event when it is a `go` statement. -/
def Event.isGo (e : Event) : Bool :=
  match e.act with
  | .go => true
  | _ => false

/-- Holds of an event when it is a call of `cancel`. -/
def Event.isCancel (e : Event) : Bool :=
  match e.act with
  | .cancel _ => true
  | _ => false

/-- Holds of an event when it is the return of `main`. -/
def Event.isMainReturn (e : Event) : Bool :=
  match e.act with
  | .mainReturn => true
  | _ => false

/-- Holds of an event when it is a `setupLog.Error` call. -/
def Event.isLog (e : Event) : Bool :=
  match e.act with
  | .logError _ _ => true
  | _ => false

/-- Holds of an event when it is a call of `events.NewRecorder`. -/
def Event.isNewRecorder (e : Event) : Bool :=
  match e.act with
  | .newRecorder _ _ _ => true
  | _ => false

/-- Holds of an event when it is a call of `ctrl.NewManager`. -/
def Event.isNewManager (e : Event) : Bool :=
  match e.act with
  | .newManager _ _ _ => true
  | _ => false

/-- Holds of an event that can only occur after the goroutine was launched:
a call or return of the cache, of `Reconcile`, `cancel`, or the return of
`main`. -/
def Event.isLate (e : Event) : Bool :=
  match e.act with
  | .cacheStart _ => true
  | .cacheStartRet _ => true
  | .waitForCacheSync _ => true
  | .waitForCacheSyncRet _ => true
  | .reconcile _ _ _ => true
  | .reconcileRet _ _ => true
  | .cancel _ => true
  | .mainReturn => true
  | _ => false

/-- Holds of an event when it records a startup step that failed: a failed
`events.NewRecorder` (line 67), `GetConfigOrDie` ending the process (line 83),
a failed `ctrl.NewManager` (line 84) or a failed `SetupWithManager`
(line 109). -/
def Event.isStartupFailure (e : Event) : Bool :=
  match e.act with
  | .newRecorder _ _ (some _) => true
  | .getConfigOrDie _ true => true
  | .newManager _ _ (some _) => true
  | .setupWithManager _ _ _ (some _) => true
  | _ => false

/-- Holds of an event when it is the cache's `Start` returning an error. -/
def Event.isStartError (e : Event) : Bool :=
  match e.act with
  | .cacheStartRet (some _) => true
  | _ => false

/-- Holds of an event when it records a fatal condition: a startup step that
failed, `WaitForCacheSync` returning false, or the cache's `Start` returning
an error. -/
def Event.isFatal (e : Event) : Bool :=
  e.isStartupFailure || e.isWaitRet false || e.isStartError

/-- The request of a `Reconcile` call, if the event is one. -/
def Event.reconcileRequest (e : Event) : Option Request :=
  match e.act with
  | .reconcile _ _ req => some req
  | _ => none

/-- In the trace `tr`, every event that satisfies `q` comes after an event
that satisfies `p`. -/
def Preceded (p q : Event → Bool) (tr : List Event) : Prop :=
  ∀ pre e post, tr = pre ++ e :: post → q e = true → ∃ e' ∈ pre, p e' = true

/-- The events of `main` in a trace. -/
def byMain (tr : List Event) : List Event :=
  tr.filter (fun e => decide (e.tid = Tid.main))

/-- The events of the goroutine in a trace. -/
def byBg (tr : List Event) : List Event :=
  tr.filter (fun e => decide (e.tid = Tid.bg))

/-- The number of `main` steps in a schedule. -/
def mainSteps (sched : List Tid) : Nat :=
  sched.count Tid.main

/-! ## Example outcomes and schedules -/

/-- Outcomes under which every startup step succeeds, the cache syncs, the
cache's `Start` returns an error when it returns, and `Reconcile` returns an
error. -/
def demoEnv : Env where
  eventsAddr := ""
  sourcePath := "./deploy"
  revision := "main/4f2a"
  requeueDependency := 30
  watchAllNamespaces := true
  clientOptions := ⟨""⟩
  logOptions := ⟨""⟩
  runtimeNamespace := "flux-system"
  newRecorder := fun a n => .ok ⟨a, n⟩
  metricsNewRecorder := ⟨0⟩
  getConfigOrDie := fun _ => some ⟨0⟩
  newManager := fun _ _ => .ok ⟨⟨7⟩, ⟨0⟩, 1, 2, 3⟩
  setupWithManager := fun _ _ _ => none
  cacheStart := fun _ => some "cache stopped"
  waitForCacheSync := fun _ => true
  reconcile := fun _ _ _ => (⟨false, 0⟩, some "reconcile failed")

/-- As `demoEnv`, but `WaitForCacheSync` returns false. -/
def demoSyncFails : Env :=
  { demoEnv with waitForCacheSync := fun _ => false }

/-- As `demoEnv`, but `ctrl.NewManager` returns an error. -/
def demoManagerFails : Env :=
  { demoEnv with newManager := fun _ _ => .error "no manager" }

/-- As `demoEnv`, but `SetupWithManager` returns an error. -/
def demoControllerFails : Env :=
  { demoEnv with setupWithManager := fun _ _ _ => some "no controller" }

/-- As `demoEnv`, but with another value for every flag and for
`RUNTIME_NAMESPACE`; only that namespace is watched. -/
def demoOtherConfig : Env :=
  { demoEnv with
    eventsAddr := "http://events.example"
    sourcePath := "./clusters/prod"
    revision := "v2/91bc"
    requeueDependency := 5
    watchAllNamespaces := false
    clientOptions := ⟨"--kube-api-qps=50"⟩
    logOptions := ⟨"--log-level=debug"⟩
    runtimeNamespace := "prod" }

/-- The goroutine calls `Start`, then `main` runs to its end. -/
def schedToDone : List Tid :=
  [.bg, .main, .main, .main, .main, .main, .main, .main]

/-- The goroutine calls `Start`; `main` runs up to the call of `Reconcile`;
`Start` returns; `main` runs to its end before the goroutine moves again. -/
def schedLostError : List Tid :=
  [.bg, .main, .main, .main, .main, .bg, .main, .main, .main]

/-- The goroutine calls `Start`, then `main` runs up to the return of
`WaitForCacheSync`. -/
def schedToSync : List Tid :=
  [.bg, .main, .main]

/-- The goroutine calls `Start`; `main` runs up to the return of
`Reconcile`. -/
def schedToReconciled : List Tid :=
  [.bg, .main, .main, .main, .main, .main]

/-- The goroutine calls `Start`; `main` runs up to and including `cancel()`;
`Start` returns; `main` returns before the goroutine moves again. -/
def schedLateError : List Tid :=
  [.bg, .main, .main, .main, .main, .main, .main, .bg, .main]

/-- The goroutine calls `Start`; `main` runs up to the return of
`WaitForCacheSync`; `Start` returns and the goroutine runs lines 120-121. -/
def schedKilled : List Tid :=
  [.bg, .main, .main, .bg, .bg, .bg]

/-! ## Definitions used by the proofs -/

/-- The events of `main` since the goroutine was launched, by program
counter. -/
def mainPost (env : Env) (l : Locals) : MainPc → List Event
  | .waitCall => []
  | .waiting => [onMain (.waitForCacheSync l.cancelCtx)]
  | .syncFailedLog =>
    [onMain (.waitForCacheSync l.cancelCtx), onMain (.waitForCacheSyncRet false)]
  | .syncFailedExit =>
    [onMain (.waitForCacheSync l.cancelCtx), onMain (.waitForCacheSyncRet false),
      onMain (.logError l.err "problem starting cache")]
  | .exited =>
    [onMain (.waitForCacheSync l.cancelCtx), onMain (.waitForCacheSyncRet false),
      onMain (.logError l.err "problem starting cache"), onMain (.osExit 1)]
  | .buildReq =>
    [onMain (.waitForCacheSync l.cancelCtx), onMain (.waitForCacheSyncRet true)]
  | .reconcileCall =>
    [onMain (.waitForCacheSync l.cancelCtx), onMain (.waitForCacheSyncRet true)]
  | .reconciling =>
    [onMain (.waitForCacheSync l.cancelCtx), onMain (.waitForCacheSyncRet true),
      onMain (.reconcile l.c (.loggerInto l.cancelCtx) ⟨"foo", "bar"⟩)]
  | .cancelCall =>
    [onMain (.waitForCacheSync l.cancelCtx), onMain (.waitForCacheSyncRet true),
      onMain (.reconcile l.c (.loggerInto l.cancelCtx) ⟨"foo", "bar"⟩),
      onMain (.reconcileRet (env.reconcile l.c (.loggerInto l.cancelCtx) ⟨"foo", "bar"⟩).1
        (env.reconcile l.c (.loggerInto l.cancelCtx) ⟨"foo", "bar"⟩).2)]
  | .ret =>
    [onMain (.waitForCacheSync l.cancelCtx), onMain (.waitForCacheSyncRet true),
      onMain (.reconcile l.c (.loggerInto l.cancelCtx) ⟨"foo", "bar"⟩),
      onMain (.reconcileRet (env.reconcile l.c (.loggerInto l.cancelCtx) ⟨"foo", "bar"⟩).1
        (env.reconcile l.c (.loggerInto l.cancelCtx) ⟨"foo", "bar"⟩).2),
      onMain (.cancel l.cancelCtx)]
  | .returned =>
    [onMain (.waitForCacheSync l.cancelCtx), onMain (.waitForCacheSyncRet true),
      onMain (.reconcile l.c (.loggerInto l.cancelCtx) ⟨"foo", "bar"⟩),
      onMain (.reconcileRet (env.reconcile l.c (.loggerInto l.cancelCtx) ⟨"foo", "bar"⟩).1
        (env.reconcile l.c (.loggerInto l.cancelCtx) ⟨"foo", "bar"⟩).2),
      onMain (.cancel l.cancelCtx), onMain .mainReturn]

/-- The value of the variable `ctx`, by program counter of `main`. -/
def ctxAt (l : Locals) : MainPc → Ctx
  | .reconcileCall => .loggerInto l.cancelCtx
  | .reconciling => .loggerInto l.cancelCtx
  | .cancelCall => .loggerInto l.cancelCtx
  | .ret => .loggerInto l.cancelCtx
  | .returned => .loggerInto l.cancelCtx
  | _ => l.cancelCtx

/-- The value of the variable `req`, by program counter of `main`. -/
def reqAt : MainPc → Request
  | .reconcileCall => ⟨"foo", "bar"⟩
  | .reconciling => ⟨"foo", "bar"⟩
  | .cancelCall => ⟨"foo", "bar"⟩
  | .ret => ⟨"foo", "bar"⟩
  | .returned => ⟨"foo", "bar"⟩
  | _ => ⟨"", ""⟩

/-- The events of the goroutine, by program counter, when `Start` was called
with the context `c`. -/
def bgPost (env : Env) (c : Ctx) : BgPc → List Event
  | .startCall => []
  | .starting _ => [onBg (.cacheStart c)]
  | .errLog _ => [onBg (.cacheStart c), onBg (.cacheStartRet (env.cacheStart c))]
  | .errExit =>
    [onBg (.cacheStart c), onBg (.cacheStartRet (env.cacheStart c)),
      onBg (.logError (env.cacheStart c) "problem starting cache")]
  | .exited =>
    [onBg (.cacheStart c), onBg (.cacheStartRet (env.cacheStart c)),
      onBg (.logError (env.cacheStart c) "problem starting cache"), onBg (.osExit 1)]
  | .finished => [onBg (.cacheStart c), onBg (.cacheStartRet (env.cacheStart c))]

/-- What the program counter of the goroutine says about `Start`. -/
def bgSide (env : Env) (c : Ctx) : BgPc → Prop
  | .startCall => True
  | .starting c' => c' = c
  | .errLog e => env.cacheStart c = some e
  | .errExit => (env.cacheStart c).isSome = true
  | .exited => (env.cacheStart c).isSome = true
  | .finished => env.cacheStart c = none

/-- The exit code, by program counters. -/
def exitAt : MainPc → BgPc → Option Nat
  | .returned, _ => some 0
  | .exited, _ => some 1
  | _, .exited => some 1
  | _, _ => none

/-- The two threads cannot both have ended the process. -/
def Coherent (mpc : MainPc) (bpc : BgPc) : Prop :=
  bpc = .exited → mpc ≠ .returned ∧ mpc ≠ .exited

/-- The invariant of the concurrent part: the trace is the trace of `setup`
followed by an interleaving of what the two program counters stand for. -/
def Inv (env : Env) (l : Locals) (tr0 : List Event) (s : State) : Prop :=
  ∃ rest c, s.trace = tr0 ++ rest ∧ byMain rest = mainPost env l s.mainPc ∧
    byBg rest = bgPost env c s.bgPc ∧ bgSide env c s.bgPc ∧
    (c = l.cancelCtx ∨ c = .loggerInto l.cancelCtx) ∧
    s.ctx = ctxAt l s.mainPc ∧ s.req = reqAt s.mainPc ∧
    s.exit = exitAt s.mainPc s.bgPc ∧ Coherent s.mainPc s.bgPc

/-- The trace of lines 42-73 when the event-recorder step does not fail. -/
def recorderPrefix (env : Env) : List Event :=
  if env.eventsAddr = "" then [onMain (.setLogger env.logOptions)]
  else [onMain (.setLogger env.logOptions),
    onMain (.newRecorder env.eventsAddr controllerName none)]

/-- The four ways in which lines 42-118 end the process. -/
inductive FatalShape (env : Env) (tr : List Event) : Prop where
  /-- Line 69: the event recorder could not be created. -/
  | recorder (e : Err) (ha : env.eventsAddr ≠ "")
      (hr : env.newRecorder env.eventsAddr controllerName = .error e)
      (ht : tr = [onMain (.setLogger env.logOptions),
        onMain (.newRecorder env.eventsAddr controllerName (some e)),
        onMain (.logError (some e) "unable to create event recorder"),
        onMain (.osExit 1)])
  /-- Line 83: `GetConfigOrDie` ended the process. -/
  | config (hc : env.getConfigOrDie env.clientOptions = none)
      (ht : tr = recorderPrefix env ++ [onMain (.mustRegister env.metricsNewRecorder),
        onMain (.getConfigOrDie env.clientOptions true), onMain (.osExit 1)])
  /-- Line 94: the manager could not be created. -/
  | manager (cfg : RestConfig) (e : Err)
      (hc : env.getConfigOrDie env.clientOptions = some cfg)
      (hm : env.newManager cfg (managerOptions env) = .error e)
      (ht : tr = recorderPrefix env ++ [onMain (.mustRegister env.metricsNewRecorder),
        onMain (.getConfigOrDie env.clientOptions false),
        onMain (.newManager cfg (managerOptions env) (some e)),
        onMain (.logError (some e) "unable to start manager"), onMain (.osExit 1)])
  /-- Line 113: the controller could not be set up. -/
  | controller (cfg : RestConfig) (mgr : Manager) (er : Option Recorder) (e : Err)
      (hc : env.getConfigOrDie env.clientOptions = some cfg)
      (hm : env.newManager cfg (managerOptions env) = .ok mgr)
      (hea : env.eventsAddr = "" → er = none)
      (ht : tr = recorderPrefix env ++ [onMain (.mustRegister env.metricsNewRecorder),
        onMain (.getConfigOrDie env.clientOptions false),
        onMain (.newManager cfg (managerOptions env) none),
        onMain (.setupWithManager (mkReconciler env er env.metricsNewRecorder mgr) mgr ⟨2⟩
          (some e)),
        onMain (.logError (some e) "unable to create controller"), onMain (.osExit 1)])

/-- Everything the invariant says about a trace `tr` and an exit code `ex`
reached with the program counters `mpc` and `bpc`: the events are those of
`setup`, those of `main` up to `mpc` and those of the goroutine up to `bpc`. -/
def Facts (env : Env) (l : Locals) (tr0 tr : List Event) (ex : Option Nat)
    (mpc : MainPc) (bpc : BgPc) : Prop :=
  ∃ c,
    (∀ e, e ∈ tr ↔ e ∈ tr0 ∨ e ∈ mainPost env l mpc ∨ e ∈ bgPost env c bpc) ∧
    (∀ p, tr.countP p =
      tr0.countP p + (mainPost env l mpc).countP p + (bgPost env c bpc).countP p) ∧
    (∀ p q, (∀ e ∈ tr0, q e = false) → (∀ e ∈ bgPost env c bpc, q e = false) →
      Preceded p q (mainPost env l mpc) → Preceded p q tr) ∧
    (∀ p q, (∀ e ∈ tr0, q e = false) → (∃ e ∈ tr0, p e = true) → Preceded p q tr) ∧
    bgSide env c bpc ∧ (c = l.cancelCtx ∨ c = .loggerInto l.cancelCtx) ∧
    ex = exitAt mpc bpc ∧ Coherent mpc bpc

/-- The program counter of `main` after one of its steps. -/
def nextPc (env : Env) (l : Locals) : MainPc → MainPc
  | .waitCall => .waiting
  | .waiting => if env.waitForCacheSync l.cancelCtx then .buildReq else .syncFailedLog
  | .syncFailedLog => .syncFailedExit
  | .syncFailedExit => .exited
  | .exited => .exited
  | .buildReq => .reconcileCall
  | .reconcileCall => .reconciling
  | .reconciling => .cancelCall
  | .cancelCall => .ret
  | .ret => .returned
  | .returned => .returned

/-- The program counter of the goroutine after one of its steps, when the
variable `ctx` holds `ctx`. -/
def nextBg (env : Env) (ctx : Ctx) : BgPc → BgPc
  | .startCall => .starting ctx
  | .starting c =>
    match env.cacheStart c with
    | some e => .errLog e
    | none => .finished
  | .errLog _ => .errExit
  | .errExit => .exited
  | .exited => .exited
  | .finished => .finished

/-- One step of the process, on program counters only. -/
def stepPcs (env : Env) (l : Locals) (t : Tid) (pcs : MainPc × BgPc) : MainPc × BgPc :=
  if (exitAt pcs.1 pcs.2).isSome then pcs
  else
    match t with
    | .main => (nextPc env l pcs.1, pcs.2)
    | .bg => (pcs.1, nextBg env (ctxAt l pcs.1) pcs.2)

/-- The program counters after a schedule. -/
def pcsAfter (env : Env) (l : Locals) (sched : List Tid) (pcs : MainPc × BgPc) :
    MainPc × BgPc :=
  sched.foldl (fun pcs t => stepPcs env l t pcs) pcs

/-- The number of steps `main` has made since line 125 when it stands at a
program counter. -/
def MainPc.rank : MainPc → Nat
  | .waitCall => 0
  | .waiting => 1
  | .buildReq => 2
  | .syncFailedLog => 2
  | .reconcileCall => 3
  | .syncFailedExit => 3
  | .reconciling => 4
  | .exited => 4
  | .cancelCall => 5
  | .ret => 6
  | .returned => 7

/-! ## Lemmas -/

theorem inv_init (env : Env) (l : Locals) (tr0 : List Event) :
    Inv env l tr0 (State.init tr0 l) :=
  ⟨[], l.cancelCtx, by simp [State.init], by simp [State.init, byMain, mainPost],
    by simp [State.init, byBg, bgPost], by simp [State.init, bgSide], Or.inl rfl,
    by simp [State.init, ctxAt], by simp [State.init, reqAt],
    by simp [State.init, exitAt], by simp [State.init, Coherent]⟩

theorem inv_stepMain (env : Env) (l : Locals) (tr0 : List Event) (s : State)
    (hex : s.exit = none) (h : Inv env l tr0 s) : Inv env l tr0 (stepMain env l s) := by
  obtain ⟨rest, c, h1, h2, h3, h4, h5, h6, h7, h8, h9⟩ := h
  rcases s with ⟨mpc, bpc, ctx, req, tr, ex⟩
  simp only at h1 h2 h3 h4 h6 h7 h8 h9 hex
  subst h1 h6 h7 hex
  cases mpc
  case exited => cases bpc <;> simp [exitAt] at h8
  case returned => cases bpc <;> simp [exitAt] at h8
  case buildReq =>
    refine ⟨rest, c, ?_⟩
    cases bpc <;>
      simp_all [stepMain, byMain, byBg, mainPost, ctxAt, reqAt, exitAt, onMain,
        List.filter_append, Coherent]
  all_goals
    refine ⟨_, c, List.append_assoc _ _ _, ?_⟩
    cases hw : env.waitForCacheSync l.cancelCtx <;> cases bpc <;>
      simp_all [stepMain, byMain, byBg, mainPost, ctxAt, reqAt, exitAt, onMain,
        List.filter_append, Coherent]

theorem inv_stepBg (env : Env) (l : Locals) (tr0 : List Event) (s : State)
    (hex : s.exit = none) (h : Inv env l tr0 s) : Inv env l tr0 (stepBg env s) := by
  obtain ⟨rest, c, h1, h2, h3, h4, h5, h6, h7, h8, h9⟩ := h
  rcases s with ⟨mpc, bpc, ctx, req, tr, ex⟩
  simp only at h1 h2 h3 h4 h6 h7 h8 h9 hex
  subst h1 h6 h7 hex
  cases bpc
  case exited => cases mpc <;> simp [exitAt] at h8
  case finished =>
    exact ⟨rest, c, rfl, h2, h3, h4, h5, rfl, rfl, h8, h9⟩
  case startCall =>
    refine ⟨rest ++ [onBg (.cacheStart (ctxAt l mpc))], ctxAt l mpc, ?_⟩
    cases mpc <;>
      simp_all [stepBg, byMain, byBg, bgPost, bgSide, ctxAt, exitAt, onBg,
        List.filter_append, Coherent]
  case starting c' =>
    simp only [bgSide] at h4
    subst h4
    cases hs : env.cacheStart c'
    · refine ⟨rest ++ [onBg (.cacheStartRet none)], c', ?_⟩
      cases mpc <;>
        simp_all [stepBg, byMain, byBg, bgPost, bgSide, ctxAt, exitAt, onBg,
          List.filter_append, Coherent]
    · rename_i e
      refine ⟨rest ++ [onBg (.cacheStartRet (some e))], c', ?_⟩
      cases mpc <;>
        simp_all [stepBg, byMain, byBg, bgPost, bgSide, ctxAt, exitAt, onBg,
          List.filter_append, Coherent]
  all_goals
    refine ⟨_, c, List.append_assoc _ _ _, ?_⟩
    cases mpc <;>
      simp_all [stepBg, byMain, byBg, bgPost, bgSide, ctxAt, exitAt, onBg,
        List.filter_append, Coherent]

theorem inv_step (env : Env) (l : Locals) (tr0 : List Event) (t : Tid) (s : State)
    (h : Inv env l tr0 s) : Inv env l tr0 (step env l t s) := by
  unfold step
  cases hex : s.exit with
  | some n => simpa using h
  | none =>
    cases t
    · simpa using inv_stepMain env l tr0 s hex h
    · simpa using inv_stepBg env l tr0 s hex h

theorem inv_exec (env : Env) (l : Locals) (tr0 : List Event) (sched : List Tid) :
    ∀ s, Inv env l tr0 s → Inv env l tr0 (exec env l sched s) := by
  induction sched with
  | nil => intro s h; simpa [exec] using h
  | cons t ts ih =>
    intro s h
    have := ih (step env l t s) (inv_step env l tr0 t s h)
    simpa [exec] using this

theorem setupFrom_ready (env : Env) (tr tr0 : List Event) (er : Option Recorder)
    (l : Locals) (h : setupFrom env tr er = .ready tr0 l) :
    ∃ cfg mgr,
      env.getConfigOrDie env.clientOptions = some cfg ∧
      env.newManager cfg (managerOptions env) = .ok mgr ∧
      env.setupWithManager (mkReconciler env er env.metricsNewRecorder mgr) mgr ⟨2⟩ = none ∧
      l = ⟨mgr, mkReconciler env er env.metricsNewRecorder mgr, none,
        .withCancel .signalHandler⟩ ∧
      tr0 = tr ++ [onMain (.mustRegister env.metricsNewRecorder),
        onMain (.getConfigOrDie env.clientOptions false),
        onMain (.newManager cfg (managerOptions env) none),
        onMain (.setupWithManager (mkReconciler env er env.metricsNewRecorder mgr) mgr ⟨2⟩
          none),
        onMain .setupSignalHandler, onMain .go] := by
  unfold setupFrom at h
  cases hc : env.getConfigOrDie env.clientOptions with
  | none => simp [hc] at h
  | some cfg =>
    cases hm : env.newManager cfg (managerOptions env) with
    | error e => simp [hc, hm] at h
    | ok mgr =>
      cases hs : env.setupWithManager (mkReconciler env er env.metricsNewRecorder mgr) mgr ⟨2⟩ with
      | some e => simp [hc, hm, hs] at h
      | none =>
        simp [hc, hm, hs] at h
        exact ⟨cfg, mgr, rfl, hm, hs, h.2.symm, by simp [← h.1]⟩

theorem setup_ready (env : Env) (tr0 : List Event) (l : Locals)
    (h : setup env = .ready tr0 l) :
    ∃ er cfg mgr,
      (env.eventsAddr = "" → er = none) ∧
      env.getConfigOrDie env.clientOptions = some cfg ∧
      env.newManager cfg (managerOptions env) = .ok mgr ∧
      env.setupWithManager (mkReconciler env er env.metricsNewRecorder mgr) mgr ⟨2⟩ = none ∧
      l = ⟨mgr, mkReconciler env er env.metricsNewRecorder mgr, none,
        .withCancel .signalHandler⟩ ∧
      tr0 = recorderPrefix env ++ [onMain (.mustRegister env.metricsNewRecorder),
        onMain (.getConfigOrDie env.clientOptions false),
        onMain (.newManager cfg (managerOptions env) none),
        onMain (.setupWithManager (mkReconciler env er env.metricsNewRecorder mgr) mgr ⟨2⟩
          none),
        onMain .setupSignalHandler, onMain .go] := by
  unfold setup at h
  by_cases ha : env.eventsAddr = ""
  · simp only [ha, ne_eq, not_true_eq_false, if_false] at h
    obtain ⟨cfg, mgr, h1, h2, h3, h4, h5⟩ := setupFrom_ready env _ _ _ _ h
    exact ⟨none, cfg, mgr, fun _ => rfl, h1, h2, h3, h4, by simp [recorderPrefix, ha, h5]⟩
  · simp only [ne_eq, ha, not_false_eq_true, if_true] at h
    cases hr : env.newRecorder env.eventsAddr controllerName with
    | error e => simp [hr] at h
    | ok er =>
      simp only [hr] at h
      obtain ⟨cfg, mgr, h1, h2, h3, h4, h5⟩ := setupFrom_ready env _ _ _ _ h
      exact ⟨some er, cfg, mgr, fun h0 => absurd h0 ha, h1, h2, h3, h4,
        by simp [recorderPrefix, ha, h5]⟩

theorem setupFrom_fatal (env : Env) (tr0 tr : List Event) (er : Option Recorder)
    (h0 : tr0 = recorderPrefix env) (hea : env.eventsAddr = "" → er = none)
    (h : setupFrom env tr0 er = .fatal tr) :
    FatalShape env tr := by
  unfold setupFrom at h
  cases hc : env.getConfigOrDie env.clientOptions with
  | none =>
    simp [hc] at h
    exact .config hc (by simp [← h, h0])
  | some cfg =>
    cases hm : env.newManager cfg (managerOptions env) with
    | error e =>
      simp [hc, hm] at h
      exact .manager cfg e hc hm (by simp [← h, h0])
    | ok mgr =>
      cases hs : env.setupWithManager (mkReconciler env er env.metricsNewRecorder mgr) mgr ⟨2⟩ with
      | some e =>
        simp [hc, hm, hs] at h
        exact .controller cfg mgr er e hc hm hea (by simp [← h, h0])
      | none => simp [hc, hm, hs] at h

theorem setup_fatal (env : Env) (tr : List Event) (h : setup env = .fatal tr) :
    FatalShape env tr := by
  unfold setup at h
  by_cases ha : env.eventsAddr = ""
  · simp only [ha, ne_eq, not_true_eq_false, if_false] at h
    exact setupFrom_fatal env _ _ _ (by simp [recorderPrefix, ha]) (fun _ => rfl) h
  · simp only [ne_eq, ha, not_false_eq_true, if_true] at h
    cases hr : env.newRecorder env.eventsAddr controllerName with
    | error e =>
      simp [hr] at h
      exact .recorder e ha hr h.symm
    | ok er =>
      simp only [hr] at h
      exact setupFrom_fatal env _ _ _ (by simp [recorderPrefix, ha]) (fun h0 => absurd h0 ha) h

theorem mem_iff_byMain_or_byBg (tr : List Event) (e : Event) :
    e ∈ tr ↔ e ∈ byMain tr ∨ e ∈ byBg tr := by
  rcases e with ⟨t, a⟩
  cases t <;> simp [byMain, byBg, List.mem_filter]

theorem mem_byMain (tr : List Event) (e : Event) :
    e ∈ byMain tr ↔ e ∈ tr ∧ e.tid = .main := by
  simp [byMain, List.mem_filter]

theorem mem_byBg (tr : List Event) (e : Event) :
    e ∈ byBg tr ↔ e ∈ tr ∧ e.tid = .bg := by
  simp [byBg, List.mem_filter]

theorem countP_byMain_add_byBg (p : Event → Bool) (tr : List Event) :
    tr.countP p = (byMain tr).countP p + (byBg tr).countP p := by
  induction tr with
  | nil => simp [byMain, byBg]
  | cons e es ih =>
    rcases e with ⟨t, a⟩
    cases t
    · cases hp : p ⟨.main, a⟩ <;>
        (simp_all [byMain, byBg, List.filter_cons, List.countP_cons]; try omega)
    · cases hp : p ⟨.bg, a⟩ <;>
        (simp_all [byMain, byBg, List.filter_cons, List.countP_cons]; try omega)

theorem preceded_nil (p q : Event → Bool) : Preceded p q [] := by
  intro pre e post h
  simp at h

theorem preceded_cons (p q : Event → Bool) (x : Event) (xs : List Event) :
    Preceded p q (x :: xs) ↔ q x = false ∧ (p x = true ∨ Preceded p q xs) := by
  constructor
  · intro h
    refine ⟨?_, ?_⟩
    · cases hq : q x with
      | false => rfl
      | true => simpa using h [] x xs rfl hq
    · cases hp : p x with
      | true => exact Or.inl rfl
      | false =>
        refine Or.inr ?_
        intro pre e post hsplit hq
        obtain ⟨e', he', hpe⟩ := h (x :: pre) e post (by simp [hsplit]) hq
        rcases List.mem_cons.mp he' with rfl | hmem
        · simp [hp] at hpe
        · exact ⟨e', hmem, hpe⟩
  · rintro ⟨hq, hor⟩ pre e post hsplit hqe
    cases pre with
    | nil =>
      simp at hsplit
      rw [← hsplit.1, hq] at hqe
      cases hqe
    | cons y ys =>
      simp at hsplit
      obtain ⟨rfl, rfl⟩ := hsplit
      rcases hor with hp | hrest
      · exact ⟨x, by simp, hp⟩
      · obtain ⟨e', he', hpe⟩ := hrest ys e post rfl hqe
        exact ⟨e', by simp [he'], hpe⟩

theorem preceded_append_left (p q : Event → Bool) (a b : List Event)
    (ha : ∀ e ∈ a, q e = false) (hb : Preceded p q b) : Preceded p q (a ++ b) := by
  induction a with
  | nil => simpa using hb
  | cons x xs ih =>
    rw [List.cons_append, preceded_cons]
    exact ⟨ha x (by simp), Or.inr (ih (fun e he => ha e (by simp [he])))⟩

theorem preceded_append_of_mem (p q : Event → Bool) (a b : List Event)
    (ha : ∀ e ∈ a, q e = false) (hp : ∃ e ∈ a, p e = true) : Preceded p q (a ++ b) := by
  intro pre e post hsplit hq
  obtain ⟨x, hx, hpx⟩ := hp
  rcases List.append_eq_append_iff.mp hsplit with ⟨a', rfl, _⟩ | ⟨c', rfl, hc⟩
  · exact ⟨x, by simp [hx], hpx⟩
  · cases c' with
    | nil => exact ⟨x, by simpa using hx, hpx⟩
    | cons y ys =>
      simp at hc
      have hmem : e ∈ pre ++ y :: ys := by simp [hc.1]
      rw [ha e hmem] at hq
      cases hq

theorem preceded_of_byMain (p q : Event → Bool) (tr : List Event)
    (hbg : ∀ e ∈ byBg tr, q e = false) (h : Preceded p q (byMain tr)) :
    Preceded p q tr := by
  intro pre e post hsplit hq
  have hmem : e ∈ tr := by simp [hsplit]
  have htid : e.tid = .main := by
    cases ht : e.tid with
    | main => rfl
    | bg =>
      have := hbg e ((mem_byBg tr e).mpr ⟨hmem, ht⟩)
      simp [this] at hq
  have hf : byMain tr = byMain pre ++ e :: byMain post := by
    subst hsplit
    simp [byMain, List.filter_append, List.filter_cons, htid]
  obtain ⟨e', he', hpe⟩ := h _ e _ hf hq
  exact ⟨e', ((mem_byMain pre e').mp he').1, hpe⟩

theorem exec_append (env : Env) (l : Locals) (a b : List Tid) (s : State) :
    exec env l (a ++ b) s = exec env l b (exec env l a s) := by
  simp [exec, List.foldl_append]

theorem main_fatal (env : Env) (sched : List Tid) (tr : List Event)
    (h : setup env = .fatal tr) : main env sched = ⟨tr, some 1⟩ := by
  simp [main, h]

theorem main_ready (env : Env) (sched : List Tid) (tr0 : List Event) (l : Locals)
    (h : setup env = .ready tr0 l) :
    main env sched = ⟨(exec env l sched (State.init tr0 l)).trace,
      (exec env l sched (State.init tr0 l)).exit⟩ := by
  simp [main, h]

theorem setup_cases (env : Env) :
    (∃ tr, setup env = .fatal tr) ∨ (∃ tr0 l, setup env = .ready tr0 l) := by
  cases h : setup env with
  | fatal tr => exact Or.inl ⟨tr, rfl⟩
  | ready tr0 l => exact Or.inr ⟨tr0, l, rfl⟩

/-- The state behind a run that got past line 118; the run of a longer
schedule continues from it. -/
theorem main_ready_state (env : Env) (sched : List Tid) (tr0 : List Event) (l : Locals)
    (h : setup env = .ready tr0 l) :
    ∃ s, Inv env l tr0 s ∧ (main env sched).trace = s.trace ∧
      (main env sched).exit = s.exit ∧
      ∀ extra, (main env (sched ++ extra)).trace = (exec env l extra s).trace ∧
        (main env (sched ++ extra)).exit = (exec env l extra s).exit := by
  refine ⟨exec env l sched (State.init tr0 l),
    inv_exec env l tr0 sched _ (inv_init env l tr0), ?_, ?_, fun extra => ?_⟩
  · rw [main_ready env sched tr0 l h]
  · rw [main_ready env sched tr0 l h]
  · rw [main_ready env (sched ++ extra) tr0 l h, exec_append]
    exact ⟨rfl, rfl⟩

theorem not_late (e : Event) (h : e.isLate = false) :
    e.isReconcile = false ∧ e.isReconcileRet = false ∧ e.isWait = false ∧
      (∀ b, e.isWaitRet b = false) ∧ e.isCacheStart = false ∧
      e.isCacheStartRet = false ∧ e.isCancel = false ∧ e.isMainReturn = false := by
  rcases e with ⟨t, a⟩
  cases a <;>
    simp_all [Event.isLate, Event.isReconcile, Event.isReconcileRet, Event.isWait,
      Event.isWaitRet, Event.isCacheStart, Event.isCacheStartRet, Event.isCancel,
      Event.isMainReturn]

theorem recorderPrefix_quiet (env : Env) :
    ∀ e ∈ recorderPrefix env, e.isLate = false ∧ e.isGo = false ∧ e.tid = .main ∧
      e.isLog = false ∧ e.isNewManager = false := by
  intro e he
  unfold recorderPrefix at he
  split at he <;> simp at he <;> rcases he with rfl | rfl <;>
    simp [Event.isLate, Event.isGo, Event.isLog, Event.isNewManager, onMain]

theorem fatal_quiet (env : Env) (tr : List Event) (h : FatalShape env tr) :
    ∀ e ∈ tr, e.isLate = false ∧ e.isGo = false ∧ e.tid = .main := by
  have hp : ∀ e ∈ recorderPrefix env, e.isLate = false ∧ e.isGo = false ∧ e.tid = .main :=
    fun e he => ⟨(recorderPrefix_quiet env e he).1, (recorderPrefix_quiet env e he).2.1,
      (recorderPrefix_quiet env e he).2.2.1⟩
  rcases h with ⟨e1, _, _, rfl⟩ | ⟨_, rfl⟩ | ⟨_, _, _, _, rfl⟩ | ⟨_, _, _, _, _, _, _, rfl⟩ <;>
    simp only [List.forall_mem_append, List.forall_mem_cons] <;>
    simp [Event.isLate, Event.isGo, onMain] <;> exact hp

theorem ready_quiet (env : Env) (tr0 : List Event) (l : Locals)
    (h : setup env = .ready tr0 l) :
    ∀ e ∈ tr0, e.isLate = false ∧ e.tid = .main ∧ e.isLog = false := by
  have hp : ∀ e ∈ recorderPrefix env, e.isLate = false ∧ e.tid = .main ∧ e.isLog = false :=
    fun e he => ⟨(recorderPrefix_quiet env e he).1, (recorderPrefix_quiet env e he).2.2.1,
      (recorderPrefix_quiet env e he).2.2.2.1⟩
  obtain ⟨er, cfg, mgr, _, _, _, _, _, rfl⟩ := setup_ready env tr0 l h
  simp only [List.forall_mem_append, List.forall_mem_cons]
  simp [Event.isLate, Event.isLog, onMain]
  exact hp

theorem bgPost_props (env : Env) (c : Ctx) (bpc : BgPc) :
    ∀ e ∈ bgPost env c bpc, e.tid = .bg ∧ e.isReconcile = false ∧
      e.isReconcileRet = false ∧ e.isWait = false ∧ (∀ b, e.isWaitRet b = false) ∧
      e.isCancel = false ∧ e.isMainReturn = false ∧ e.isGo = false ∧
      e.isNewManager = false ∧ e.isNewRecorder = false := by
  cases bpc <;> simp [bgPost, onBg, Event.isReconcile, Event.isReconcileRet, Event.isWait,
    Event.isWaitRet, Event.isCancel, Event.isMainReturn, Event.isGo, Event.isNewManager,
    Event.isNewRecorder]

theorem mainPost_props (env : Env) (l : Locals) (mpc : MainPc) :
    ∀ e ∈ mainPost env l mpc, e.tid = .main ∧ e.isCacheStart = false ∧
      e.isCacheStartRet = false ∧ e.isGo = false ∧ e.isNewManager = false ∧
      e.isNewRecorder = false := by
  cases mpc <;> simp [mainPost, onMain, Event.isCacheStart, Event.isCacheStartRet,
    Event.isGo, Event.isNewManager, Event.isNewRecorder]

theorem inv_facts (env : Env) (l : Locals) (tr0 : List Event) (s : State)
    (h : Inv env l tr0 s) : Facts env l tr0 s.trace s.exit s.mainPc s.bgPc := by
  obtain ⟨rest, c, h1, h2, h3, h4, h5, _, _, h8, h9⟩ := h
  refine ⟨c, ?_, ?_, ?_, ?_, h4, h5, h8, h9⟩
  · intro e
    rw [h1, List.mem_append, mem_iff_byMain_or_byBg rest e, h2, h3]
  · intro p
    rw [h1, List.countP_append, countP_byMain_add_byBg p rest, h2, h3, Nat.add_assoc]
  · intro p q hq0 hqb hm
    rw [h1]
    refine preceded_append_left p q tr0 rest hq0 (preceded_of_byMain p q rest ?_ ?_)
    · rw [h3]; exact hqb
    · rw [h2]; exact hm
  · intro p q hq0 hp0
    rw [h1]
    exact preceded_append_of_mem p q tr0 rest hq0 hp0

theorem step_pcs (env : Env) (l : Locals) (tr0 : List Event) (t : Tid) (s : State)
    (h : Inv env l tr0 s) :
    ((step env l t s).mainPc, (step env l t s).bgPc) =
      stepPcs env l t (s.mainPc, s.bgPc) := by
  obtain ⟨rest, c, h1, h2, h3, h4, h5, h6, h7, h8, -⟩ := h
  rcases s with ⟨mpc, bpc, ctx, req, tr, ex⟩
  simp only at h1 h2 h3 h4 h6 h7 h8
  subst h6 h8
  unfold step stepPcs
  by_cases hx : (exitAt mpc bpc).isSome = true
  · simp [hx]
  · simp only [hx, Bool.false_eq_true, if_false]
    cases t
    · cases mpc <;> simp [stepMain, nextPc, ctxAt]
    · cases bpc <;> simp [stepBg, nextBg]
      split <;> simp_all

theorem exec_pcs (env : Env) (l : Locals) (tr0 : List Event) (sched : List Tid) :
    ∀ s, Inv env l tr0 s →
      ((exec env l sched s).mainPc, (exec env l sched s).bgPc) =
        sched.foldl (fun pcs t => stepPcs env l t pcs) (s.mainPc, s.bgPc) := by
  induction sched with
  | nil => intro s _; simp [exec]
  | cons t ts ih =>
    intro s h
    have h1 := ih (step env l t s) (inv_step env l tr0 t s h)
    rw [step_pcs env l tr0 t s h] at h1
    simpa [exec] using h1

/-- A run that got past line 118 stands at some program counters, at which
`Facts` describes it; and the run of a longer schedule stands at the program
counters that the extra steps lead to. -/
theorem main_facts (env : Env) (sched : List Tid) (tr0 : List Event) (l : Locals)
    (h : setup env = .ready tr0 l) :
    ∃ mpc bpc,
      Facts env l tr0 (main env sched).trace (main env sched).exit mpc bpc ∧
      ∀ extra, Facts env l tr0 (main env (sched ++ extra)).trace
        (main env (sched ++ extra)).exit
        (pcsAfter env l extra (mpc, bpc)).1 (pcsAfter env l extra (mpc, bpc)).2 := by
  obtain ⟨s, hinv, htr, hex, hext⟩ := main_ready_state env sched tr0 l h
  refine ⟨s.mainPc, s.bgPc, ?_, fun extra => ?_⟩
  · rw [htr, hex]
    exact inv_facts env l tr0 s hinv
  · rw [(hext extra).1, (hext extra).2]
    have hp := exec_pcs env l tr0 extra s hinv
    have h1 : (pcsAfter env l extra (s.mainPc, s.bgPc)).1 = (exec env l extra s).mainPc := by
      unfold pcsAfter; rw [← hp]
    have h2 : (pcsAfter env l extra (s.mainPc, s.bgPc)).2 = (exec env l extra s).bgPc := by
      unfold pcsAfter; rw [← hp]
    rw [h1, h2]
    exact inv_facts env l tr0 _ (inv_exec env l tr0 extra s hinv)

theorem countP_zero_of_late (tr : List Event) (p : Event → Bool)
    (hq : ∀ e ∈ tr, e.isLate = false) (hp : ∀ e, e.isLate = false → p e = false) :
    tr.countP p = 0 := by
  simpa [List.countP_eq_zero] using fun e he => hp e (hq e he)

theorem bg_count_zero (env : Env) (c : Ctx) (bpc : BgPc) :
    (bgPost env c bpc).countP Event.isReconcile = 0 ∧
    (bgPost env c bpc).countP Event.isCancel = 0 := by
  constructor <;> simp only [List.countP_eq_zero] <;> intro e he
  · simp [(bgPost_props env c bpc e he).2.1]
  · simp [(bgPost_props env c bpc e he).2.2.2.2.2.1]

/-- What `setup` leaves in the trace and in the local variables when it gets
to line 118, event by event. -/
theorem ready_events (env : Env) (tr0 : List Event) (l : Locals)
    (h : setup env = .ready tr0 l) :
    ∃ er cfg mgr,
      (env.eventsAddr = "" → er = none) ∧
      env.getConfigOrDie env.clientOptions = some cfg ∧
      env.newManager cfg (managerOptions env) = .ok mgr ∧
      l = ⟨mgr, mkReconciler env er env.metricsNewRecorder mgr, none,
        .withCancel .signalHandler⟩ ∧
      (∀ e, e ∈ tr0 ↔ e ∈ recorderPrefix env ∨
        e = onMain (.mustRegister env.metricsNewRecorder) ∨
        e = onMain (.getConfigOrDie env.clientOptions false) ∨
        e = onMain (.newManager cfg (managerOptions env) none) ∨
        e = onMain (.setupWithManager (mkReconciler env er env.metricsNewRecorder mgr) mgr
          ⟨2⟩ none) ∨
        e = onMain .setupSignalHandler ∨ e = onMain .go) := by
  obtain ⟨er, cfg, mgr, h1, h2, h3, _, h5, rfl⟩ := setup_ready env tr0 l h
  exact ⟨er, cfg, mgr, h1, h2, h3, h5, fun e => by simp⟩

theorem recorderPrefix_mem (env : Env) (e : Event) (h : e ∈ recorderPrefix env) :
    e = onMain (.setLogger env.logOptions) ∨
      (env.eventsAddr ≠ "" ∧ e = onMain (.newRecorder env.eventsAddr controllerName none)) := by
  unfold recorderPrefix at h
  split at h
  · simp at h; exact Or.inl h
  · rename_i hne
    simp at h
    rcases h with h | h
    · exact Or.inl h
    · exact Or.inr ⟨hne, h⟩

/-- Membership in the trace of a fatal `setup`, event by event. -/
theorem fatal_events (env : Env) (tr : List Event) (h : FatalShape env tr) (e : Event)
    (he : e ∈ tr) :
    e ∈ recorderPrefix env ∨ e = onMain (.setLogger env.logOptions) ∨
      e = onMain (.osExit 1) ∨
      e = onMain (.mustRegister env.metricsNewRecorder) ∨
      (∃ x, env.eventsAddr ≠ "" ∧ env.newRecorder env.eventsAddr controllerName = .error x ∧
        (e = onMain (.newRecorder env.eventsAddr controllerName (some x)) ∨
          e = onMain (.logError (some x) "unable to create event recorder"))) ∨
      (∃ b, e = onMain (.getConfigOrDie env.clientOptions b)) ∨
      (∃ cfg err, env.getConfigOrDie env.clientOptions = some cfg ∧
        (e = onMain (.newManager cfg (managerOptions env) err) ∨
          e = onMain (.logError err "unable to start manager"))) ∨
      (∃ er mgr x, (env.eventsAddr = "" → er = none) ∧
        (e = onMain (.setupWithManager (mkReconciler env er env.metricsNewRecorder mgr) mgr
            ⟨2⟩ (some x)) ∨
          e = onMain (.logError (some x) "unable to create controller"))) := by
  rcases h with ⟨x, ha, hr, rfl⟩ | ⟨_, rfl⟩ | ⟨cfg, x, hc, _, rfl⟩ |
    ⟨cfg, mgr, er, x, hc, _, hea, rfl⟩
  · simp at he
    rcases he with rfl | rfl | rfl | rfl
    · exact Or.inr (Or.inl rfl)
    · exact Or.inr (Or.inr (Or.inr (Or.inr (Or.inl ⟨x, ha, hr, Or.inl rfl⟩))))
    · exact Or.inr (Or.inr (Or.inr (Or.inr (Or.inl ⟨x, ha, hr, Or.inr rfl⟩))))
    · exact Or.inr (Or.inr (Or.inl rfl))
  · simp at he
    rcases he with he | rfl | rfl | rfl
    · exact Or.inl he
    · exact Or.inr (Or.inr (Or.inr (Or.inl rfl)))
    · exact Or.inr (Or.inr (Or.inr (Or.inr (Or.inr (Or.inl ⟨true, rfl⟩)))))
    · exact Or.inr (Or.inr (Or.inl rfl))
  · simp at he
    rcases he with he | rfl | rfl | rfl | rfl | rfl
    · exact Or.inl he
    · exact Or.inr (Or.inr (Or.inr (Or.inl rfl)))
    · exact Or.inr (Or.inr (Or.inr (Or.inr (Or.inr (Or.inl ⟨false, rfl⟩)))))
    · exact Or.inr (Or.inr (Or.inr (Or.inr (Or.inr (Or.inr (Or.inl
        ⟨cfg, some x, hc, Or.inl rfl⟩))))))
    · exact Or.inr (Or.inr (Or.inr (Or.inr (Or.inr (Or.inr (Or.inl
        ⟨cfg, some x, hc, Or.inr rfl⟩))))))
    · exact Or.inr (Or.inr (Or.inl rfl))
  · simp at he
    rcases he with he | rfl | rfl | rfl | rfl | rfl | rfl
    · exact Or.inl he
    · exact Or.inr (Or.inr (Or.inr (Or.inl rfl)))
    · exact Or.inr (Or.inr (Or.inr (Or.inr (Or.inr (Or.inl ⟨false, rfl⟩)))))
    · exact Or.inr (Or.inr (Or.inr (Or.inr (Or.inr (Or.inr (Or.inl
        ⟨cfg, none, hc, Or.inl rfl⟩))))))
    · exact Or.inr (Or.inr (Or.inr (Or.inr (Or.inr (Or.inr (Or.inr
        ⟨er, mgr, x, hea, Or.inl rfl⟩))))))
    · exact Or.inr (Or.inr (Or.inr (Or.inr (Or.inr (Or.inr (Or.inr
        ⟨er, mgr, x, hea, Or.inr rfl⟩))))))
    · exact Or.inr (Or.inr (Or.inl rfl))

theorem main_facts_init (env : Env) (sched : List Tid) (tr0 : List Event) (l : Locals)
    (h : setup env = .ready tr0 l) :
    Facts env l tr0 (main env sched).trace (main env sched).exit
      (pcsAfter env l sched (.waitCall, .startCall)).1
      (pcsAfter env l sched (.waitCall, .startCall)).2 := by
  rw [main_ready env sched tr0 l h]
  have hinv := inv_exec env l tr0 sched _ (inv_init env l tr0)
  have hp := exec_pcs env l tr0 sched _ (inv_init env l tr0)
  have h1 : (pcsAfter env l sched (.waitCall, .startCall)).1 =
      (exec env l sched (State.init tr0 l)).mainPc := by
    unfold pcsAfter
    exact (congrArg Prod.fst hp).symm
  have h2 : (pcsAfter env l sched (.waitCall, .startCall)).2 =
      (exec env l sched (State.init tr0 l)).bgPc := by
    unfold pcsAfter
    exact (congrArg Prod.snd hp).symm
  rw [h1, h2]
  exact inv_facts env l tr0 _ hinv

theorem pcsAfter_cons (env : Env) (l : Locals) (t : Tid) (ts : List Tid)
    (pcs : MainPc × BgPc) :
    pcsAfter env l (t :: ts) pcs = pcsAfter env l ts (stepPcs env l t pcs) := by
  simp [pcsAfter]

theorem pcsAfter_dead (env : Env) (l : Locals) (sched : List Tid) :
    ∀ pcs : MainPc × BgPc, (exitAt pcs.1 pcs.2).isSome = true →
      pcsAfter env l sched pcs = pcs := by
  induction sched with
  | nil => intro pcs _; simp [pcsAfter]
  | cons t ts ih =>
    intro pcs h
    rw [pcsAfter_cons]
    have : stepPcs env l t pcs = pcs := by simp [stepPcs, h]
    rw [this]
    exact ih pcs h

theorem nextPc_rank (env : Env) (l : Locals) (m : MainPc) (b : BgPc)
    (h : exitAt m b = none) : (nextPc env l m).rank = m.rank + 1 := by
  cases m <;> simp [exitAt] at h <;> simp [nextPc, MainPc.rank]
  cases env.waitForCacheSync l.cancelCtx <;> simp [MainPc.rank]

theorem pcsAfter_rank (env : Env) (l : Locals) (sched : List Tid) :
    ∀ pcs : MainPc × BgPc,
      exitAt (pcsAfter env l sched pcs).1 (pcsAfter env l sched pcs).2 = none →
        (pcsAfter env l sched pcs).1.rank = pcs.1.rank + mainSteps sched := by
  induction sched with
  | nil => intro pcs _; simp [pcsAfter, mainSteps]
  | cons t ts ih =>
    intro pcs h
    rw [pcsAfter_cons] at h ⊢
    rw [ih _ h]
    by_cases hd : (exitAt pcs.1 pcs.2).isSome = true
    · exfalso
      have h1 : stepPcs env l t pcs = pcs := by simp [stepPcs, hd]
      rw [h1, pcsAfter_dead env l ts pcs hd] at h
      simp [h] at hd
    · have hnone : exitAt pcs.1 pcs.2 = none := by
        cases hx : exitAt pcs.1 pcs.2 with
        | none => rfl
        | some n => simp [hx] at hd
      cases t
      · have : (stepPcs env l .main pcs).1 = nextPc env l pcs.1 := by simp [stepPcs, hd]
        rw [this, nextPc_rank env l pcs.1 pcs.2 hnone]
        simp [mainSteps]
        omega
      · have : (stepPcs env l .bg pcs).1 = pcs.1 := by simp [stepPcs, hd]
        rw [this]
        simp [mainSteps]

theorem rank_le_of_alive (m : MainPc) (b : BgPc) (h : exitAt m b = none) : m.rank ≤ 6 := by
  cases m <;> cases b <;> simp [exitAt, MainPc.rank] at h ⊢

theorem setup_reconcile_irrelevant (env : Env)
    (r : Reconciler → Ctx → Request → Result × Option Err) :
    setup { env with reconcile := r } = setup env := rfl

theorem pcsAfter_reconcile_irrelevant (env : Env) (l : Locals)
    (r : Reconciler → Ctx → Request → Result × Option Err) (sched : List Tid)
    (pcs : MainPc × BgPc) :
    pcsAfter { env with reconcile := r } l sched pcs = pcsAfter env l sched pcs := rfl

theorem exit_of_sync_failure (env : Env) (sched : List Tid)
    (hw : ∃ e ∈ (main env sched).trace, e.isWaitRet false = true) :
    (main env sched).exit ≠ some 0 ∧
    ((main env sched).exit = none → (main env (sched ++ [.main, .main])).exit = some 1) := by
  rcases setup_cases env with ⟨tr, hs⟩ | ⟨tr0, l, hs⟩
  · rw [main_fatal env sched tr hs]; simp
  · obtain ⟨mpc, bpc, ⟨c, hmem, -, -, -, -, -, hex, -⟩, hext⟩ := main_facts env sched tr0 l hs
    obtain ⟨c2, -, -, -, -, -, -, hex2, -⟩ := hext [.main, .main]
    have hq := ready_quiet env tr0 l hs
    have hb := bgPost_props env c bpc
    have hw' : ∃ e ∈ mainPost env l mpc, e.isWaitRet false = true := by
      obtain ⟨e, he, hw⟩ := hw
      rcases (hmem e).mp he with h1 | h1 | h1
      · simp [(not_late e (hq e h1).1).2.2.2.1 false] at hw
      · exact ⟨e, h1, hw⟩
      · simp [(hb e h1).2.2.2.2.1 false] at hw
    rw [hex, hex2]
    cases mpc <;> simp [mainPost, onMain, Event.isWaitRet] at hw' <;>
      cases bpc <;> simp [exitAt, pcsAfter, stepPcs, nextPc]

theorem exit_of_os_exit (env : Env) (sched : List Tid) (t : Tid)
    (he : (⟨t, .osExit 1⟩ : Event) ∈ (main env sched).trace) :
    (main env sched).exit = some 1 := by
  rcases setup_cases env with ⟨tr, hs⟩ | ⟨tr0, l, hs⟩
  · rw [main_fatal env sched tr hs]
  · obtain ⟨mpc, bpc, ⟨c, hmem, -, -, -, -, -, hex, hcoh⟩, -⟩ := main_facts env sched tr0 l hs
    obtain ⟨er, cfg, mgr, -, -, -, -, h0⟩ := ready_events env tr0 l hs
    rw [hex]
    rcases (hmem _).mp he with h1 | h1 | h1
    · exfalso
      rcases (h0 _).mp h1 with h2 | h2 | h2 | h2 | h2 | h2 | h2
      · rcases recorderPrefix_mem env _ h2 with h3 | ⟨-, h3⟩ <;> simp [onMain] at h3
      all_goals simp [onMain] at h2
    · have hm : mpc = .exited := by
        revert h1
        cases mpc <;> simp [mainPost, onMain]
      subst hm
      cases bpc <;> simp [exitAt]
    · have hb : bpc = .exited := by
        revert h1
        cases bpc <;> simp [bgPost, onBg]
      subst hb
      have := hcoh rfl
      revert this
      cases mpc <;> simp [exitAt]

theorem exit_of_manager_failure (env : Env) (sched : List Tid)
    (h : ∃ e ∈ (main env sched).trace, ∃ cfg opts err,
      e.act = .newManager cfg opts (some err)) : (main env sched).exit = some 1 := by
  rcases setup_cases env with ⟨tr, hs⟩ | ⟨tr0, l, hs⟩
  · rw [main_fatal env sched tr hs]
  · exfalso
    obtain ⟨mpc, bpc, ⟨c, hmem, -⟩, -⟩ := main_facts env sched tr0 l hs
    obtain ⟨er, cfg, mgr, -, -, -, -, h0⟩ := ready_events env tr0 l hs
    obtain ⟨e, he, cfg', opts, err, hact⟩ := h
    rcases (hmem e).mp he with h1 | h1 | h1
    · rcases (h0 e).mp h1 with h2 | h2 | h2 | h2 | h2 | h2 | h2
      · have := (recorderPrefix_quiet env e h2).2.2.2.2
        simp [Event.isNewManager, hact] at this
      all_goals simp [h2, onMain] at hact
    · have := (mainPost_props env l mpc e h1).2.2.2.2.1
      simp [Event.isNewManager, hact] at this
    · have := (bgPost_props env c bpc e h1).2.2.2.2.2.2.2.2.1
      simp [Event.isNewManager, hact] at this

theorem exit_of_start_error (env : Env) (sched : List Tid)
    (h : ∃ e ∈ (main env sched).trace, ∃ err, e.act = .cacheStartRet (some err))
    (halive : (main env sched).exit = none) :
    (main env (sched ++ [.bg, .bg])).exit = some 1 := by
  rcases setup_cases env with ⟨tr, hs⟩ | ⟨tr0, l, hs⟩
  · rw [main_fatal env sched tr hs] at halive; cases halive
  · obtain ⟨mpc, bpc, ⟨c, hmem, -, -, -, hside, -, hex, -⟩, hext⟩ :=
      main_facts env sched tr0 l hs
    obtain ⟨c3, -, -, -, -, -, -, hex3, -⟩ := hext [.bg, .bg]
    have hq := ready_quiet env tr0 l hs
    obtain ⟨e, he, err, hact⟩ := h
    have hb' : ∃ e ∈ bgPost env c bpc, e.act = .cacheStartRet (some err) := by
      rcases (hmem e).mp he with h1 | h1 | h1
      · have := (not_late e (hq e h1).1).2.2.2.2.2.1
        simp [Event.isCacheStartRet, hact] at this
      · have := (mainPost_props env l mpc e h1).2.2.1
        simp [Event.isCacheStartRet, hact] at this
      · exact ⟨e, h1, hact⟩
    rw [hex] at halive
    rw [hex3]
    have hm : mpc ≠ .returned ∧ mpc ≠ .exited := by
      revert halive
      cases mpc <;> cases bpc <;> simp [exitAt]
    have hbpc : (∃ x, bpc = .errLog x) ∨ bpc = .errExit := by
      revert hb' hside halive
      cases bpc <;> cases mpc <;> simp [bgPost, onBg, bgSide, exitAt]
      all_goals
        intro h1 h2
        simp [h2] at h1
    rcases hbpc with ⟨x, rfl⟩ | rfl <;> revert hm <;>
      cases mpc <;> simp [exitAt, pcsAfter, stepPcs, nextBg]

theorem exit_zero_iff_returned (env : Env) (sched : List Tid) :
    (∃ e ∈ (main env sched).trace, e.isMainReturn = true) ↔ (main env sched).exit = some 0 := by
  rcases setup_cases env with ⟨tr, hs⟩ | ⟨tr0, l, hs⟩
  · rw [main_fatal env sched tr hs]
    have hq := fatal_quiet env tr (setup_fatal env tr hs)
    constructor
    · rintro ⟨e, he, hw⟩
      simp [(not_late e (hq e he).1).2.2.2.2.2.2.2] at hw
    · intro hx
      cases hx
  · obtain ⟨mpc, bpc, ⟨c, hmem, -, -, -, -, -, hex, hcoh⟩, -⟩ := main_facts env sched tr0 l hs
    have hq := ready_quiet env tr0 l hs
    have hb := bgPost_props env c bpc
    rw [hex]
    constructor
    · rintro ⟨e, he, hw⟩
      have hw' : ∃ e ∈ mainPost env l mpc, e.isMainReturn = true := by
        rcases (hmem e).mp he with h1 | h1 | h1
        · simp [(not_late e (hq e h1).1).2.2.2.2.2.2.2] at hw
        · exact ⟨e, h1, hw⟩
        · simp [(hb e h1).2.2.2.2.2.2.1] at hw
      cases mpc <;> simp [mainPost, onMain, Event.isMainReturn] at hw'
      simp [exitAt]
    · intro hx
      refine ⟨onMain .mainReturn, (hmem _).mpr (Or.inr (Or.inl ?_)), rfl⟩
      cases mpc <;> cases bpc <;> simp [exitAt] at hx <;> simp [mainPost]

theorem exit_reconcile_irrelevant (env : Env) (sched : List Tid)
    (r : Reconciler → Ctx → Request → Result × Option Err) :
    (main { env with reconcile := r } sched).exit = (main env sched).exit := by
  rcases setup_cases env with ⟨tr, hs⟩ | ⟨tr0, l, hs⟩
  · have hs' : setup { env with reconcile := r } = .fatal tr := by
      rw [setup_reconcile_irrelevant]; exact hs
    rw [main_fatal env sched tr hs, main_fatal _ sched tr hs']
  · have hs' : setup { env with reconcile := r } = .ready tr0 l := by
      rw [setup_reconcile_irrelevant]; exact hs
    obtain ⟨-, -, -, -, -, -, -, ha, -⟩ := main_facts_init env sched tr0 l hs
    obtain ⟨-, -, -, -, -, -, -, hb, -⟩ :=
      main_facts_init { env with reconcile := r } sched tr0 l hs'
    rw [ha, hb, pcsAfter_reconcile_irrelevant]

theorem exit_values (env : Env) (sched : List Tid) :
    (main env sched).exit = none ∨ (main env sched).exit = some 0 ∨
      (main env sched).exit = some 1 := by
  rcases setup_cases env with ⟨tr, hs⟩ | ⟨tr0, l, hs⟩
  · rw [main_fatal env sched tr hs]; simp
  · obtain ⟨mpc, bpc, ⟨c, -, -, -, -, -, -, hex, -⟩, -⟩ := main_facts env sched tr0 l hs
    rw [hex]
    cases mpc <;> cases bpc <;> simp [exitAt]

theorem exit_after_seven (env : Env) (sched : List Tid) (h7 : 7 ≤ mainSteps sched) :
    (main env sched).exit ≠ none := by
  rcases setup_cases env with ⟨tr, hs⟩ | ⟨tr0, l, hs⟩
  · rw [main_fatal env sched tr hs]; simp
  · obtain ⟨-, -, -, -, -, -, -, ha, -⟩ := main_facts_init env sched tr0 l hs
    rw [ha]
    intro hnone
    have h1 := pcsAfter_rank env l sched (.waitCall, .startCall) hnone
    have h2 := rank_le_of_alive _ _ hnone
    have h3 : ((MainPc.waitCall, BgPc.startCall) : MainPc × BgPc).1.rank = 0 := rfl
    rw [h3] at h1
    omega

theorem go_requires_ready (env : Env) (sched : List Tid)
    (h : ∃ e ∈ (main env sched).trace, e.isGo = true) : ∃ tr0 l, setup env = .ready tr0 l := by
  rcases setup_cases env with ⟨tr, hs⟩ | hr
  · exfalso
    rw [main_fatal env sched tr hs] at h
    obtain ⟨e, he, hg⟩ := h
    simp [(fatal_quiet env tr (setup_fatal env tr hs) e he).2.1] at hg
  · exact hr

theorem ready_go_count (env : Env) (tr0 : List Event) (l : Locals)
    (hs : setup env = .ready tr0 l) :
    tr0.countP Event.isGo = 1 ∧ (∃ e ∈ tr0, e.isGo = true) := by
  obtain ⟨er, cfg, mgr, -, -, -, -, -, rfl⟩ := setup_ready env tr0 l hs
  have hp : (recorderPrefix env).countP Event.isGo = 0 := by
    simp only [List.countP_eq_zero]
    intro e he
    simp [(recorderPrefix_quiet env e he).2.1]
  refine ⟨?_, onMain .go, by simp, rfl⟩
  rw [List.countP_append, hp]
  simp [List.countP_cons, Event.isGo, onMain]

theorem overlap_schedule (env : Env) (tr0 : List Event) (l : Locals)
    (hs : setup env = .ready tr0 l) :
    (main env [.bg, .main, .main]).trace = tr0 ++
      [onBg (.cacheStart (.withCancel .signalHandler)),
        onMain (.waitForCacheSync (.withCancel .signalHandler)),
        onMain (.waitForCacheSyncRet (env.waitForCacheSync (.withCancel .signalHandler)))] := by
  obtain ⟨er, cfg, mgr, -, -, -, hl, -⟩ := ready_events env tr0 l hs
  rw [main_ready env _ tr0 l hs]
  subst hl
  simp [exec, step, stepMain, stepBg, State.init]

/-- The number of `Reconcile` calls and their request: at most one call, always
with the request of lines 130-132; exactly one call once `WaitForCacheSync`
has returned true and `main` has returned, or has made two more steps in a
live process. -/
theorem reconcile_count_facts (env : Env) (sched : List Tid) :
    (main env sched).trace.countP Event.isReconcile ≤ 1 ∧
    (∀ e ∈ (main env sched).trace, ∀ c ctx req, e.act = .reconcile c ctx req →
      req = ⟨"foo", "bar"⟩) ∧
    ((∃ e ∈ (main env sched).trace, e.isWaitRet true = true) →
      ((main env sched).exit = some 0 →
        (main env sched).trace.countP Event.isReconcile = 1) ∧
      ((main env sched).exit = none →
        (main env (sched ++ [.main, .main])).trace.countP Event.isReconcile = 1)) := by
  rcases setup_cases env with ⟨tr, h⟩ | ⟨tr0, l, h⟩
  · rw [main_fatal env sched tr h]
    have hq := fatal_quiet env tr (setup_fatal env tr h)
    have hr : ∀ e ∈ tr, e.isReconcile = false := fun e he => (not_late e (hq e he).1).1
    refine ⟨?_, ?_, ?_⟩
    · rw [countP_zero_of_late tr _ (fun e he => (hq e he).1) (fun e h => (not_late e h).1)]
      omega
    · intro e he c ctx req hact
      have := hr e he
      simp [Event.isReconcile, hact] at this
    · rintro ⟨e, he, hw⟩
      have := (not_late e (hq e he).1).2.2.2.1 true
      simp [this] at hw
  · obtain ⟨mpc, bpc, ⟨c, hmem, hcnt, -, -, -, -, hex, -⟩, hext⟩ :=
      main_facts env sched tr0 l h
    obtain ⟨c2, -, hcnt2, -, -, -, -, -⟩ := hext [.main, .main]
    have hq := ready_quiet env tr0 l h
    have hl : ∀ e ∈ tr0, e.isLate = false := fun e he => (hq e he).1
    have h0 := countP_zero_of_late tr0 Event.isReconcile hl (fun e h => (not_late e h).1)
    have hb := bgPost_props env c bpc
    refine ⟨?_, ?_, ?_⟩
    · rw [hcnt, h0, (bg_count_zero env c bpc).1]
      cases mpc <;> simp [mainPost, onMain, Event.isReconcile, List.countP_cons]
    · intro e he c' ctx req hact
      rcases (hmem e).mp he with h1 | h1 | h1
      · have := (not_late e (hl e h1)).1
        simp [Event.isReconcile, hact] at this
      · have hm : ∀ e ∈ mainPost env l mpc, ∀ c' ctx req,
            e.act = .reconcile c' ctx req → req = ⟨"foo", "bar"⟩ := by
          cases mpc <;> simp [mainPost, onMain]
        exact hm e h1 c' ctx req hact
      · have := (hb e h1).2.1
        simp [Event.isReconcile, hact] at this
    · intro hw
      have hw' : ∃ e ∈ mainPost env l mpc, e.isWaitRet true = true := by
        obtain ⟨e, he, hw⟩ := hw
        rcases (hmem e).mp he with h1 | h1 | h1
        · have := (not_late e (hl e h1)).2.2.2.1 true
          simp [this] at hw
        · exact ⟨e, h1, hw⟩
        · have := (hb e h1).2.2.2.2.1 true
          simp [this] at hw
      rw [hcnt, hcnt2, h0, (bg_count_zero env c bpc).1, (bg_count_zero env c2 _).1, hex]
      cases mpc <;> simp [mainPost, onMain, Event.isWaitRet] at hw' <;>
        cases bpc <;>
        simp [mainPost, onMain, Event.isReconcile, List.countP_cons,
          exitAt, pcsAfter, stepPcs, nextPc]

theorem killed_before_reconcile (env : Env) (sched : List Tid)
    (hw : ∃ e ∈ (main env sched).trace, e.isWaitRet true = true)
    (h0 : (main env sched).trace.countP Event.isReconcile = 0)
    (hx : (main env sched).exit ≠ none) :
    (main env sched).exit = some 1 ∧ onBg (.osExit 1) ∈ (main env sched).trace := by
  rcases setup_cases env with ⟨tr, hs⟩ | ⟨tr0, l, hs⟩
  · exfalso
    rw [main_fatal env sched tr hs] at hw
    have hq := fatal_quiet env tr (setup_fatal env tr hs)
    obtain ⟨e, he, hw⟩ := hw
    simp [(not_late e (hq e he).1).2.2.2.1 true] at hw
  · obtain ⟨mpc, bpc, ⟨c, hmem, hcnt, -, -, -, -, hex, -⟩, -⟩ := main_facts env sched tr0 l hs
    have hq := ready_quiet env tr0 l hs
    have hl : ∀ e ∈ tr0, e.isLate = false := fun e he => (hq e he).1
    have hb := bgPost_props env c bpc
    have hr0 := countP_zero_of_late tr0 Event.isReconcile hl (fun e h => (not_late e h).1)
    have hw' : ∃ e ∈ mainPost env l mpc, e.isWaitRet true = true := by
      obtain ⟨e, he, hw⟩ := hw
      rcases (hmem e).mp he with h1 | h1 | h1
      · simp [(not_late e (hl e h1)).2.2.2.1 true] at hw
      · exact ⟨e, h1, hw⟩
      · simp [(hb e h1).2.2.2.2.1 true] at hw
    rw [hcnt, hr0, (bg_count_zero env c bpc).1] at h0
    rw [hex] at hx ⊢
    have hm : mpc = .buildReq ∨ mpc = .reconcileCall := by
      revert hw' h0
      cases mpc <;> simp [mainPost, onMain, Event.isWaitRet, Event.isReconcile]
    have hbx : bpc = .exited := by
      revert hx
      rcases hm with rfl | rfl <;> cases bpc <;> simp [exitAt]
    subst hbx
    refine ⟨by rcases hm with rfl | rfl <;> simp [exitAt],
      (hmem _).mpr (Or.inr (Or.inr (by simp [bgPost])))⟩

theorem exit_needs_fatal (env : Env) (sched : List Tid)
    (h1 : (main env sched).exit = some 1) :
    ∃ e ∈ (main env sched).trace, e.isFatal = true := by
  rcases setup_cases env with ⟨tr, hs⟩ | ⟨tr0, l, hs⟩
  · rw [main_fatal env sched tr hs]
    rcases setup_fatal env tr hs with ⟨x, -, -, rfl⟩ | ⟨-, rfl⟩ | ⟨cfg, x, -, -, rfl⟩ |
      ⟨cfg, mgr, er, x, -, -, -, rfl⟩
    · exact ⟨onMain (.newRecorder env.eventsAddr controllerName (some x)), by simp, rfl⟩
    · exact ⟨onMain (.getConfigOrDie env.clientOptions true), by simp, rfl⟩
    · exact ⟨onMain (.newManager cfg (managerOptions env) (some x)), by simp, rfl⟩
    · exact ⟨onMain (.setupWithManager (mkReconciler env er env.metricsNewRecorder mgr) mgr
        ⟨2⟩ (some x)), by simp, rfl⟩
  · obtain ⟨mpc, bpc, ⟨c, hmem, -, -, -, hside, -, hex, -⟩, -⟩ := main_facts env sched tr0 l hs
    rw [hex] at h1
    by_cases hm : mpc = .exited
    · subst hm
      exact ⟨onMain (.waitForCacheSyncRet false),
        (hmem _).mpr (Or.inr (Or.inl (by simp [mainPost]))), rfl⟩
    · have hbx : bpc = .exited := by
        revert h1 hm
        cases mpc <;> cases bpc <;> simp [exitAt]
      subst hbx
      simp only [bgSide] at hside
      obtain ⟨x, hx⟩ := Option.isSome_iff_exists.mp hside
      refine ⟨onBg (.cacheStartRet (some x)),
        (hmem _).mpr (Or.inr (Or.inr (by simp [bgPost, hx]))), rfl⟩

theorem exit_of_startup_failure (env : Env) (sched : List Tid)
    (h : ∃ e ∈ (main env sched).trace, e.isStartupFailure = true) :
    (main env sched).exit = some 1 := by
  rcases setup_cases env with ⟨tr, hs⟩ | ⟨tr0, l, hs⟩
  · rw [main_fatal env sched tr hs]
  · exfalso
    obtain ⟨mpc, bpc, ⟨c, hmem, -⟩, -⟩ := main_facts env sched tr0 l hs
    obtain ⟨er, cfg, mgr, -, -, -, -, h0⟩ := ready_events env tr0 l hs
    obtain ⟨e, he, hf⟩ := h
    rcases (hmem e).mp he with h1 | h1 | h1
    · rcases (h0 e).mp h1 with h2 | h2 | h2 | h2 | h2 | h2 | h2
      · rcases recorderPrefix_mem env e h2 with h3 | ⟨-, h3⟩ <;>
          simp [h3, onMain, Event.isStartupFailure] at hf
      all_goals simp [h2, onMain, Event.isStartupFailure] at hf
    · have hm : ∀ e ∈ mainPost env l mpc, e.isStartupFailure = false := by
        cases mpc <;> simp [mainPost, onMain, Event.isStartupFailure]
      simp [hm e h1] at hf
    · have hb : ∀ e ∈ bgPost env c bpc, e.isStartupFailure = false := by
        cases bpc <;> simp [bgPost, onBg, Event.isStartupFailure]
      simp [hb e h1] at hf

/-! ## The claims -/

/-- C1. In every run, every call of `Reconcile` comes after a return of
`WaitForCacheSync` with the value true; and in every run in which
`WaitForCacheSync` returns false, `Reconcile` is called zero times. -/
theorem reconcile_only_after_sync (env : Env) (sched : List Tid) :
    Preceded (Event.isWaitRet true) Event.isReconcile (main env sched).trace ∧
    ((∃ e ∈ (main env sched).trace, e.isWaitRet false = true) →
      (main env sched).trace.countP Event.isReconcile = 0) := by
  rcases setup_cases env with ⟨tr, h⟩ | ⟨tr0, l, h⟩
  · rw [main_fatal env sched tr h]
    have hq := fatal_quiet env tr (setup_fatal env tr h)
    have hr : ∀ e ∈ tr, e.isReconcile = false := fun e he => (not_late e (hq e he).1).1
    refine ⟨?_, fun _ => ?_⟩
    · simpa using preceded_append_left _ _ tr [] hr (preceded_nil _ _)
    · simpa [List.countP_eq_zero] using hr
  · obtain ⟨mpc, bpc, ⟨c, hmem, hcnt, hprec, _, _, _, _⟩, _⟩ := main_facts env sched tr0 l h
    have hq := ready_quiet env tr0 l h
    have hr : ∀ e ∈ tr0, e.isReconcile = false := fun e he => (not_late e (hq e he).1).1
    have hw : ∀ e ∈ tr0, e.isWaitRet false = false :=
      fun e he => (not_late e (hq e he).1).2.2.2.1 false
    have hb := bgPost_props env c bpc
    have hbr : ∀ e ∈ bgPost env c bpc, e.isReconcile = false := fun e he => (hb e he).2.1
    have hbw : ∀ e ∈ bgPost env c bpc, e.isWaitRet false = false :=
      fun e he => (hb e he).2.2.2.2.1 false
    refine ⟨hprec _ _ hr hbr ?_, ?_⟩
    · cases mpc <;>
        simp [mainPost, preceded_cons, preceded_nil, Event.isReconcile, Event.isWaitRet,
          onMain]
    · have h0 : tr0.countP Event.isReconcile = 0 := by
        simpa [List.countP_eq_zero] using hr
      have hbg0 : (bgPost env c bpc).countP Event.isReconcile = 0 := by
        simpa [List.countP_eq_zero] using hbr
      have e1 : ¬ ∃ e ∈ tr0, e.isWaitRet false = true := by
        rintro ⟨e, he, h'⟩; simp [hw e he] at h'
      have e2 : ¬ ∃ e ∈ bgPost env c bpc, e.isWaitRet false = true := by
        rintro ⟨e, he, h'⟩; simp [hbw e he] at h'
      simp only [hmem, hcnt, h0, hbg0, or_and_right, exists_or, e1, e2, false_or, or_false]
      cases mpc <;>
        simp [mainPost, onMain, Event.isReconcile, Event.isWaitRet, List.countP_cons]

/-- C1, at two concrete runs: when the sync fails `Reconcile` is not called,
and in a complete run that calls `Reconcile` the call comes after the sync. -/
theorem reconcile_only_after_sync_witness :
    (∃ e ∈ (main demoSyncFails schedToSync).trace, e.isWaitRet false = true) ∧
    (main demoSyncFails schedToSync).trace.countP Event.isReconcile = 0 ∧
    (∃ e ∈ (main demoEnv schedToDone).trace, e.isReconcile = true) ∧
    Preceded (Event.isWaitRet true) Event.isReconcile (main demoEnv schedToDone).trace :=
  ⟨by decide, (reconcile_only_after_sync demoSyncFails schedToSync).2 (by decide),
    by decide, (reconcile_only_after_sync demoEnv schedToDone).1⟩

/-- C2 fails as stated.  In the first run `WaitForCacheSync` returns true, then
the cache's `Start` returns an error and the goroutine reaches the
`os.Exit(1)` of line 121 before `main` reaches line 134: `Reconcile` is
called zero times.  In the second and third runs, which differ in every flag
and in `RUNTIME_NAMESPACE`, the one request is the same pair "foo", "bar":
it is not taken from the startup configuration. -/
theorem reconcile_exactly_once_counterexample :
    ((∃ e ∈ (main demoEnv schedKilled).trace, e.isWaitRet true = true) ∧
      (main demoEnv schedKilled).trace.countP Event.isReconcile = 0 ∧
      (main demoEnv schedKilled).exit = some 1) ∧
    ((main demoEnv schedToDone).trace.filterMap Event.reconcileRequest =
        [⟨"foo", "bar"⟩] ∧
      (main demoOtherConfig schedToDone).trace.filterMap Event.reconcileRequest =
        [⟨"foo", "bar"⟩] ∧
      watchNamespace demoOtherConfig = "prod") := by
  decide

/-- C2 (as amended). `Reconcile` is called at most once in every run, and always
with the request that lines 130-132 build, name "foo" and namespace "bar",
whatever the flags, the environment and the outcomes.  Once
`WaitForCacheSync` has returned true: a run that ends with `main` returning
has called `Reconcile` exactly once; a live run has called it exactly once as
soon as `main` has made two more steps (lines 130-133 and the call of line
134); and an ended run that has not called it was ended, with exit code 1, by
the goroutine's `os.Exit(1)`. -/
theorem reconcile_once_unless_halted (env : Env) (sched : List Tid) :
    (main env sched).trace.countP Event.isReconcile ≤ 1 ∧
    (∀ e ∈ (main env sched).trace, ∀ c ctx req, e.act = .reconcile c ctx req →
      req = ⟨"foo", "bar"⟩) ∧
    ((∃ e ∈ (main env sched).trace, e.isWaitRet true = true) →
      ((main env sched).exit = some 0 →
        (main env sched).trace.countP Event.isReconcile = 1) ∧
      ((main env sched).exit = none →
        (main env (sched ++ [.main, .main])).trace.countP Event.isReconcile = 1) ∧
      ((main env sched).exit ≠ none →
        (main env sched).trace.countP Event.isReconcile = 0 →
          (main env sched).exit = some 1 ∧ onBg (.osExit 1) ∈ (main env sched).trace)) := by
  have hf := reconcile_count_facts env sched
  refine ⟨hf.1, hf.2.1, fun hw => ⟨(hf.2.2 hw).1, (hf.2.2 hw).2, fun hx h0 => ?_⟩⟩
  exact killed_before_reconcile env sched hw h0 hx

/-- C2 as amended, at a complete run, at a run in which `WaitForCacheSync` has
just returned true, and at the run that the goroutine ends. -/
theorem reconcile_once_unless_halted_witness :
    ((∃ e ∈ (main demoEnv schedToDone).trace, e.isWaitRet true = true) ∧
      (main demoEnv schedToDone).exit = some 0 ∧
      (main demoEnv schedToDone).trace.countP Event.isReconcile = 1) ∧
    ((∃ e ∈ (main demoEnv schedToSync).trace, e.isWaitRet true = true) ∧
      (main demoEnv schedToSync).exit = none ∧
      (main demoEnv (schedToSync ++ [.main, .main])).trace.countP Event.isReconcile = 1) ∧
    ((∃ e ∈ (main demoEnv schedKilled).trace, e.isWaitRet true = true) ∧
      (main demoEnv schedKilled).exit ≠ none ∧
      (main demoEnv schedKilled).trace.countP Event.isReconcile = 0 ∧
      onBg (.osExit 1) ∈ (main demoEnv schedKilled).trace) :=
  ⟨⟨by decide, by decide,
      ((reconcile_once_unless_halted demoEnv schedToDone).2.2 (by decide)).1 (by decide)⟩,
    ⟨by decide, by decide,
      ((reconcile_once_unless_halted demoEnv schedToSync).2.2 (by decide)).2.1
        (by decide)⟩,
    ⟨by decide, by decide, by decide,
      (((reconcile_once_unless_halted demoEnv schedKilled).2.2 (by decide)).2.2
        (by decide) (by decide)).2⟩⟩

/-- C3. In every run in which `ctrl.NewManager` returns an error, the goroutine
is never launched, the cache's `Start` is never called and never returns,
`WaitForCacheSync` is never called, `Reconcile` is never called, and the
process exits with code 1. -/
theorem manager_failure_stops_before_cache (env : Env) (sched : List Tid)
    (h : ∃ e ∈ (main env sched).trace, ∃ cfg opts err,
      e.act = .newManager cfg opts (some err)) :
    (∀ e ∈ (main env sched).trace, e.isGo = false ∧ e.isCacheStart = false ∧
      e.isCacheStartRet = false ∧ e.isWait = false ∧ e.isReconcile = false) ∧
    (main env sched).exit = some 1 := by
  rcases setup_cases env with ⟨tr, hs⟩ | ⟨tr0, l, hs⟩
  · rw [main_fatal env sched tr hs]
    have hq := fatal_quiet env tr (setup_fatal env tr hs)
    refine ⟨fun e he => ?_, rfl⟩
    have hl := not_late e (hq e he).1
    exact ⟨(hq e he).2.1, hl.2.2.2.2.1, hl.2.2.2.2.2.1, hl.2.2.1, hl.1⟩
  · exfalso
    obtain ⟨mpc, bpc, ⟨c, hmem, -⟩, -⟩ := main_facts env sched tr0 l hs
    obtain ⟨er, cfg, mgr, -, -, -, -, h0⟩ := ready_events env tr0 l hs
    obtain ⟨e, he, cfg', opts, err, hact⟩ := h
    rcases (hmem e).mp he with h1 | h1 | h1
    · rcases (h0 e).mp h1 with h2 | h2 | h2 | h2 | h2 | h2 | h2
      · have := (recorderPrefix_quiet env e h2).2.2.2.2
        simp [Event.isNewManager, hact] at this
      all_goals simp [h2, onMain] at hact
    · have := (mainPost_props env l mpc e h1).2.2.2.2.1
      simp [Event.isNewManager, hact] at this
    · have := (bgPost_props env c bpc e h1).2.2.2.2.2.2.2.2.1
      simp [Event.isNewManager, hact] at this

/-- C3, at a run in which `ctrl.NewManager` fails. -/
theorem manager_failure_stops_before_cache_witness :
    (∃ e ∈ (main demoManagerFails [.main, .bg]).trace, ∃ cfg opts err,
      e.act = .newManager cfg opts (some err)) ∧
    (∀ e ∈ (main demoManagerFails [.main, .bg]).trace, e.isGo = false ∧
      e.isCacheStart = false ∧ e.isCacheStartRet = false ∧ e.isWait = false ∧
      e.isReconcile = false) ∧
    (main demoManagerFails [.main, .bg]).exit = some 1 :=
  ⟨⟨onMain (.newManager ⟨0⟩ (managerOptions demoManagerFails) (some "no manager")),
      by decide, ⟨0⟩, managerOptions demoManagerFails, "no manager", rfl⟩,
    manager_failure_stops_before_cache demoManagerFails [.main, .bg]
      ⟨onMain (.newManager ⟨0⟩ (managerOptions demoManagerFails) (some "no manager")),
        by decide, ⟨0⟩, managerOptions demoManagerFails, "no manager", rfl⟩⟩

/-- C4 fails as stated, at two runs.  In the first the cache's `Start` returns
an error while `Reconcile` is running and the exit code is 0.  In the second
`ctrl.NewManager` succeeds, the cache's `Start` returns no error and
`WaitForCacheSync` does not return false (neither is ever called), and the
exit code is 1, because `SetupWithManager` fails (lines 109-114). -/
theorem exit_code_counterexample :
    (onBg (.cacheStartRet (some "cache stopped")) ∈ (main demoEnv schedLostError).trace ∧
      (main demoEnv schedLostError).exit = some 0) ∧
    ((∀ e ∈ (main demoControllerFails []).trace, e.isNewManager = true →
        e.act = .newManager ⟨0⟩ (managerOptions demoControllerFails) none) ∧
      (∀ e ∈ (main demoControllerFails []).trace,
        e.isStartError = false ∧ e.isWaitRet false = false) ∧
      (main demoControllerFails []).exit = some 1) := by
  decide

/-- C4 (as amended). The fatal conditions are the startup failures (a failed
`events.NewRecorder`, `GetConfigOrDie` ending the process, a failed
`ctrl.NewManager`, a failed `SetupWithManager`), `WaitForCacheSync` returning
false, and the cache's `Start` returning an error.  In every run: the exit
code is 1 when `ctrl.NewManager` or another startup step fails; when
`WaitForCacheSync` returns false it is never 0, and it is 1 after two more
steps of `main`; when `Start` returns an error it is 1 after two more steps
of the goroutine, if the process is still alive then.  An exit code 1 occurs
only in a run with a fatal condition, and a run with none ends with exit code
0: it has ended once `main` has been scheduled seven times.  The exit code
never depends on what `Reconcile` returns, and no exit code other than 0 and
1 occurs. -/
theorem exit_code_by_fatal_conditions (env : Env) (sched : List Tid) :
    ((∃ e ∈ (main env sched).trace, ∃ cfg opts err,
        e.act = .newManager cfg opts (some err)) → (main env sched).exit = some 1) ∧
    ((∃ e ∈ (main env sched).trace, e.isStartupFailure = true) →
      (main env sched).exit = some 1) ∧
    ((∃ e ∈ (main env sched).trace, e.isWaitRet false = true) →
      (main env sched).exit ≠ some 0 ∧
      ((main env sched).exit = none → (main env (sched ++ [.main, .main])).exit = some 1)) ∧
    ((∃ e ∈ (main env sched).trace, ∃ err, e.act = .cacheStartRet (some err)) →
      (main env sched).exit = none → (main env (sched ++ [.bg, .bg])).exit = some 1) ∧
    ((main env sched).exit = some 1 → ∃ e ∈ (main env sched).trace, e.isFatal = true) ∧
    ((∀ e ∈ (main env sched).trace, e.isFatal = false) →
      ((main env sched).exit ≠ none → (main env sched).exit = some 0) ∧
      (7 ≤ mainSteps sched → (main env sched).exit = some 0)) ∧
    (∀ r, (main { env with reconcile := r } sched).exit = (main env sched).exit) ∧
    ((main env sched).exit = none ∨ (main env sched).exit = some 0 ∨
      (main env sched).exit = some 1) := by
  have hnone : (∀ e ∈ (main env sched).trace, e.isFatal = false) →
      (main env sched).exit ≠ none → (main env sched).exit = some 0 := by
    intro hno hx
    rcases exit_values env sched with h | h | h
    · exact absurd h hx
    · exact h
    · obtain ⟨e, he, hf⟩ := exit_needs_fatal env sched h
      rw [hno e he] at hf
      cases hf
  refine ⟨?_, ?_, ?_, ?_, ?_, ?_, ?_, ?_⟩
  · exact exit_of_manager_failure env sched
  · exact exit_of_startup_failure env sched
  · exact exit_of_sync_failure env sched
  · exact exit_of_start_error env sched
  · exact exit_needs_fatal env sched
  · exact fun hno => ⟨hnone hno, fun h7 => hnone hno (exit_after_seven env sched h7)⟩
  · exact exit_reconcile_irrelevant env sched
  · exact exit_values env sched

/-- C4 as amended, at a run in which the sync fails, at a run in which
`SetupWithManager` fails, and at a complete run with no fatal condition. -/
theorem exit_code_by_fatal_conditions_witness :
    ((∃ e ∈ (main demoSyncFails schedToSync).trace, e.isWaitRet false = true) ∧
      (main demoSyncFails schedToSync).exit = none ∧
      (main demoSyncFails (schedToSync ++ [.main, .main])).exit = some 1) ∧
    ((main demoControllerFails []).exit = some 1 ∧
      ∃ e ∈ (main demoControllerFails []).trace, e.isFatal = true) ∧
    ((∀ e ∈ (main demoEnv schedToDone).trace, e.isFatal = false) ∧
      (main demoEnv schedToDone).exit ≠ none ∧
      (main demoEnv schedToDone).exit = some 0) :=
  ⟨⟨by decide, by decide,
      ((exit_code_by_fatal_conditions demoSyncFails schedToSync).2.2.1 (by decide)).2
        (by decide)⟩,
    ⟨by decide,
      (exit_code_by_fatal_conditions demoControllerFails []).2.2.2.2.1 (by decide)⟩,
    ⟨by decide, by decide,
      ((exit_code_by_fatal_conditions demoEnv schedToDone).2.2.2.2.2.1 (by decide)).1
        (by decide)⟩⟩

/-- C5. In every run: `cancel` is called only after `Reconcile` has returned,
and at most once; `main` returns only after `cancel` has been called, and in
a run in which `main` returns `cancel` has been called exactly once; in a run
in which `Reconcile` has returned it has been called exactly once, and if the
process is alive the next step of `main` is the one call of `cancel`; and the
context that `cancel` cancels is the context passed to the cache's `Start`,
or an ancestor of it. -/
theorem cancel_once_after_reconcile (env : Env) (sched : List Tid) :
    Preceded Event.isReconcileRet Event.isCancel (main env sched).trace ∧
    Preceded Event.isCancel Event.isMainReturn (main env sched).trace ∧
    (main env sched).trace.countP Event.isCancel ≤ 1 ∧
    ((∃ e ∈ (main env sched).trace, e.isMainReturn = true) →
      (main env sched).trace.countP Event.isCancel = 1) ∧
    ((∃ e ∈ (main env sched).trace, e.isReconcileRet = true) →
      (main env sched).trace.countP Event.isReconcile = 1 ∧
      ((main env sched).exit = none →
        (main env (sched ++ [.main])).trace.countP Event.isCancel = 1)) ∧
    (∀ e ∈ (main env sched).trace, ∀ c, e.act = .cancel c →
      ∀ e' ∈ (main env sched).trace, ∀ c', e'.act = .cacheStart c' →
        c'.derivesFrom c = true) := by
  rcases setup_cases env with ⟨tr, hs⟩ | ⟨tr0, l, hs⟩
  · rw [main_fatal env sched tr hs]
    have hq := fatal_quiet env tr (setup_fatal env tr hs)
    have hl : ∀ e ∈ tr, e.isLate = false := fun e he => (hq e he).1
    have hc0 := countP_zero_of_late tr Event.isCancel hl (fun e h => (not_late e h).2.2.2.2.2.2.1)
    refine ⟨?_, ?_, ?_, ?_, ?_, ?_⟩
    · simpa using preceded_append_left Event.isReconcileRet Event.isCancel tr []
        (fun e he => (not_late e (hl e he)).2.2.2.2.2.2.1) (preceded_nil _ _)
    · simpa using preceded_append_left Event.isCancel Event.isMainReturn tr []
        (fun e he => (not_late e (hl e he)).2.2.2.2.2.2.2) (preceded_nil _ _)
    · rw [hc0]; omega
    · rintro ⟨e, he, hw⟩
      simp [(not_late e (hl e he)).2.2.2.2.2.2.2] at hw
    · rintro ⟨e, he, hw⟩
      simp [(not_late e (hl e he)).2.1] at hw
    · intro e he c hact
      have := (not_late e (hl e he)).2.2.2.2.2.2.1
      simp [Event.isCancel, hact] at this
  · obtain ⟨mpc, bpc, ⟨c, hmem, hcnt, hprec, -, -, hcc, hex, -⟩, hext⟩ :=
      main_facts env sched tr0 l hs
    obtain ⟨c2, -, hcnt2, -⟩ := hext [.main]
    obtain ⟨er, cfg, mgr, -, -, -, hloc, -⟩ := ready_events env tr0 l hs
    have hq := ready_quiet env tr0 l hs
    have hl : ∀ e ∈ tr0, e.isLate = false := fun e he => (hq e he).1
    have hb := bgPost_props env c bpc
    have hc0 := countP_zero_of_late tr0 Event.isCancel hl
      (fun e h => (not_late e h).2.2.2.2.2.2.1)
    have hr0 := countP_zero_of_late tr0 Event.isReconcile hl (fun e h => (not_late e h).1)
    have hctx : l.cancelCtx = .withCancel .signalHandler := by rw [hloc]
    refine ⟨?_, ?_, ?_, ?_, ?_, ?_⟩
    · refine hprec _ _ (fun e he => (not_late e (hl e he)).2.2.2.2.2.2.1)
        (fun e he => (hb e he).2.2.2.2.2.1) ?_
      cases mpc <;>
        simp [mainPost, preceded_cons, preceded_nil, Event.isReconcileRet, Event.isCancel,
          onMain]
    · refine hprec _ _ (fun e he => (not_late e (hl e he)).2.2.2.2.2.2.2)
        (fun e he => (hb e he).2.2.2.2.2.2.1) ?_
      cases mpc <;>
        simp [mainPost, preceded_cons, preceded_nil, Event.isMainReturn, Event.isCancel,
          onMain]
    · rw [hcnt, hc0, (bg_count_zero env c bpc).2]
      cases mpc <;> simp [mainPost, onMain, Event.isCancel, List.countP_cons]
    · intro hw
      have hw' : ∃ e ∈ mainPost env l mpc, e.isMainReturn = true := by
        obtain ⟨e, he, hw⟩ := hw
        rcases (hmem e).mp he with h1 | h1 | h1
        · simp [(not_late e (hl e h1)).2.2.2.2.2.2.2] at hw
        · exact ⟨e, h1, hw⟩
        · simp [(hb e h1).2.2.2.2.2.2.1] at hw
      rw [hcnt, hc0, (bg_count_zero env c bpc).2]
      cases mpc <;> simp [mainPost, onMain, Event.isMainReturn] at hw'
      simp [mainPost, onMain, Event.isCancel, List.countP_cons]
    · intro hw
      have hw' : ∃ e ∈ mainPost env l mpc, e.isReconcileRet = true := by
        obtain ⟨e, he, hw⟩ := hw
        rcases (hmem e).mp he with h1 | h1 | h1
        · simp [(not_late e (hl e h1)).2.1] at hw
        · exact ⟨e, h1, hw⟩
        · simp [(hb e h1).2.2.1] at hw
      rw [hcnt, hcnt2, hc0, hr0, (bg_count_zero env c bpc).1, (bg_count_zero env c2 _).2,
        hex]
      cases mpc <;> simp [mainPost, onMain, Event.isReconcileRet] at hw' <;>
        cases bpc <;>
        simp [mainPost, onMain, Event.isReconcile, Event.isCancel, List.countP_cons,
          exitAt, pcsAfter, stepPcs, nextPc]
    · intro e he c1 hact e' he' c' hact'
      have h1 : c1 = .withCancel .signalHandler := by
        rcases (hmem e).mp he with h1 | h1 | h1
        · have := (not_late e (hl e h1)).2.2.2.2.2.2.1
          simp [Event.isCancel, hact] at this
        · have hm' : ∀ e ∈ mainPost env l mpc, ∀ c1, e.act = .cancel c1 →
              c1 = l.cancelCtx := by
            cases mpc <;> simp [mainPost, onMain]
          rw [hm' e h1 c1 hact, hctx]
        · have := (hb e h1).2.2.2.2.2.1
          simp [Event.isCancel, hact] at this
      have h2 : c' = c := by
        rcases (hmem e').mp he' with h1 | h1 | h1
        · have := (not_late e' (hl e' h1)).2.2.2.2.1
          simp [Event.isCacheStart, hact'] at this
        · have := (mainPost_props env l mpc e' h1).2.1
          simp [Event.isCacheStart, hact'] at this
        · have hb' : ∀ e ∈ bgPost env c bpc, ∀ c', e.act = .cacheStart c' → c' = c := by
            cases bpc <;> simp [bgPost, onBg]
          exact hb' e' h1 c' hact'
      rw [h1, h2]
      rcases hcc with hcc | hcc <;> rw [hcc, hctx] <;> decide

/-- C5, at a complete run: one `cancel`, of the context given to `Start`. -/
theorem cancel_once_after_reconcile_witness :
    (∃ e ∈ (main demoEnv schedToDone).trace, e.isMainReturn = true) ∧
    (main demoEnv schedToDone).trace.countP Event.isCancel = 1 ∧
    onMain (.cancel (.withCancel .signalHandler)) ∈ (main demoEnv schedToDone).trace ∧
    onBg (.cacheStart (.withCancel .signalHandler)) ∈ (main demoEnv schedToDone).trace ∧
    (Ctx.withCancel .signalHandler).derivesFrom (.withCancel .signalHandler) = true :=
  ⟨by decide, (cancel_once_after_reconcile demoEnv schedToDone).2.2.2.1 (by decide),
    by decide, by decide,
    (cancel_once_after_reconcile demoEnv schedToDone).2.2.2.2.2
      (onMain (.cancel (.withCancel .signalHandler))) (by decide) _ rfl
      (onBg (.cacheStart (.withCancel .signalHandler))) (by decide) _ rfl⟩

/-- C6. Whatever the flags, the environment and the outcomes, every call of
`ctrl.NewManager` passes `DryRunClient: true`, and the reconciler on which
`Reconcile` is called has as its `Client`, and as the reader of its status
poller, the client of the manager that this call returned. -/
theorem client_is_dry_run (env : Env) (sched : List Tid) :
    (∀ e ∈ (main env sched).trace, ∀ cfg opts err,
      e.act = .newManager cfg opts err → opts.DryRunClient = true) ∧
    (∀ e ∈ (main env sched).trace, ∀ c ctx req, e.act = .reconcile c ctx req →
      ∃ cfg mgr, env.getConfigOrDie env.clientOptions = some cfg ∧
        env.newManager cfg (managerOptions env) = .ok mgr ∧
        (managerOptions env).DryRunClient = true ∧
        c.Client = mgr.GetClient ∧ c.StatusPoller.reader = mgr.GetClient) := by
  rcases setup_cases env with ⟨tr, hs⟩ | ⟨tr0, l, hs⟩
  · rw [main_fatal env sched tr hs]
    have hf := setup_fatal env tr hs
    have hq := fatal_quiet env tr hf
    refine ⟨fun e he cfg opts err hact => ?_, fun e he c ctx req hact => ?_⟩
    · rcases fatal_events env tr hf e he with
        h | h | h | h | ⟨x, -, -, h | h⟩ | ⟨b, h⟩ | ⟨cfg', err', -, h | h⟩ | ⟨er', mgr, x, hea, h | h⟩
      · have := (recorderPrefix_quiet env e h).2.2.2.2
        simp [Event.isNewManager, hact] at this
      all_goals simp [h, onMain] at hact
      simp [← hact.2.1, managerOptions]
    · have := (not_late e (hq e he).1).1
      simp [Event.isReconcile, hact] at this
  · obtain ⟨mpc, bpc, ⟨c, hmem, -⟩, -⟩ := main_facts env sched tr0 l hs
    obtain ⟨er, cfg, mgr, -, hc, hm, hl, h0⟩ := ready_events env tr0 l hs
    have hq := ready_quiet env tr0 l hs
    refine ⟨fun e he cfg' opts err hact => ?_, fun e he c' ctx req hact => ?_⟩
    · rcases (hmem e).mp he with h1 | h1 | h1
      · rcases (h0 e).mp h1 with h2 | h2 | h2 | h2 | h2 | h2 | h2
        · have := (recorderPrefix_quiet env e h2).2.2.2.2
          simp [Event.isNewManager, hact] at this
        all_goals simp [h2, onMain] at hact
        simp [← hact.2.1, managerOptions]
      · have := (mainPost_props env l mpc e h1).2.2.2.2.1
        simp [Event.isNewManager, hact] at this
      · have := (bgPost_props env c bpc e h1).2.2.2.2.2.2.2.2.1
        simp [Event.isNewManager, hact] at this
    · refine ⟨cfg, mgr, hc, hm, rfl, ?_⟩
      rcases (hmem e).mp he with h1 | h1 | h1
      · have := (not_late e (hq e h1).1).1
        simp [Event.isReconcile, hact] at this
      · have hm' : ∀ e ∈ mainPost env l mpc, ∀ c' ctx req,
            e.act = .reconcile c' ctx req → c' = l.c := by
          cases mpc <;> simp [mainPost, onMain]
        rw [hm' e h1 c' ctx req hact, hl]
        simp [mkReconciler]
      · have := (bgPost_props env c bpc e h1).2.1
        simp [Event.isReconcile, hact] at this

/-- C6, at a complete run: the one call of `ctrl.NewManager` asks for a
dry-run client. -/
theorem client_is_dry_run_witness :
    (∃ e ∈ (main demoEnv schedToDone).trace, e.isNewManager = true) ∧
    (∀ e ∈ (main demoEnv schedToDone).trace, ∀ cfg opts err,
      e.act = .newManager cfg opts err → opts.DryRunClient = true) :=
  ⟨by decide, (client_is_dry_run demoEnv schedToDone).1⟩

/-- C7. In every run with an empty `--events-addr`: `events.NewRecorder` is
never called, the log line "unable to create event recorder" is never
written, every reconciler the run builds has a nil `ExternalEventRecorder`,
the run goes on to lines 75-76, and, when `GetConfigOrDie` returns a
configuration, to the call of `ctrl.NewManager`.  In every run, the log line
"unable to create event recorder" (the one that precedes the exit of line 69)
is written only when the address is not empty and `events.NewRecorder`
returned the error that is logged; the exit code is then 1. -/
theorem empty_events_addr_disables_recorder (env : Env) (sched : List Tid) :
    (env.eventsAddr = "" →
      (∀ e ∈ (main env sched).trace, e.isNewRecorder = false) ∧
      (∀ e ∈ (main env sched).trace, ∀ err,
        e.act ≠ .logError err "unable to create event recorder") ∧
      (∀ e ∈ (main env sched).trace, ∀ c ctx req,
        e.act = .reconcile c ctx req → c.ExternalEventRecorder = none) ∧
      (∀ e ∈ (main env sched).trace, ∀ c mgr o err,
        e.act = .setupWithManager c mgr o err → c.ExternalEventRecorder = none) ∧
      onMain (.mustRegister env.metricsNewRecorder) ∈ (main env sched).trace ∧
      (∀ cfg, env.getConfigOrDie env.clientOptions = some cfg →
        ∃ err, onMain (.newManager cfg (managerOptions env) err) ∈ (main env sched).trace)) ∧
    (∀ e ∈ (main env sched).trace, ∀ err,
      e.act = .logError err "unable to create event recorder" →
        env.eventsAddr ≠ "" ∧ (main env sched).exit = some 1 ∧
        ∃ x, env.newRecorder env.eventsAddr controllerName = .error x ∧ err = some x) := by
  rcases setup_cases env with ⟨tr, hs⟩ | ⟨tr0, l, hs⟩
  · rw [main_fatal env sched tr hs]
    have hf := setup_fatal env tr hs
    have hq := fatal_quiet env tr hf
    refine ⟨fun ha => ⟨fun e he => ?_, fun e he err hact => ?_, fun e he c ctx req hact => ?_,
      fun e he c mgr o err hact => ?_, ?_, fun cfg hc => ?_⟩, fun e he err hact => ?_⟩
    · rcases fatal_events env tr hf e he with
        h | h | h | h | ⟨x, hne, -, h | h⟩ | ⟨b, h⟩ | ⟨cfg', err', -, h | h⟩ | ⟨er', mgr, x, hea, h | h⟩
      · rcases recorderPrefix_mem env e h with h | ⟨hne, -⟩
        · simp [h, onMain, Event.isNewRecorder]
        · exact absurd ha hne
      all_goals first | exact absurd ha hne | simp [h, onMain, Event.isNewRecorder]
    · rcases fatal_events env tr hf e he with
        h | h | h | h | ⟨x, hne, -, h | h⟩ | ⟨b, h⟩ | ⟨cfg', err', -, h | h⟩ | ⟨er', mgr, x, hea, h | h⟩
      · have := (recorderPrefix_quiet env e h).2.2.2.1
        simp [Event.isLog, hact] at this
      all_goals first | exact absurd ha hne | simp [h, onMain] at hact
    · have := (not_late e (hq e he).1).1
      simp [Event.isReconcile, hact] at this
    · rcases fatal_events env tr hf e he with
        h | h | h | h | ⟨x, hne, -, h | h⟩ | ⟨b, h⟩ | ⟨cfg', err', -, h | h⟩ |
        ⟨er', mgr', x, hea, h | h⟩
      · have := recorderPrefix_mem env e h
        rcases this with h | ⟨-, h⟩ <;> simp [h, onMain] at hact
      all_goals first | exact absurd ha hne | simp [h, onMain] at hact
      simp [← hact.1, mkReconciler, hea ha]
    · rcases hf with ⟨x, hne, -, -⟩ | ⟨-, rfl⟩ | ⟨cfg, x, -, -, rfl⟩ |
        ⟨cfg, mgr, c', x, -, -, -, rfl⟩
      · exact absurd ha hne
      all_goals simp
    · rcases hf with ⟨x, hne, -, -⟩ | ⟨hc', rfl⟩ | ⟨cfg', x, hc', -, rfl⟩ |
        ⟨cfg', mgr, c', x, hc', -, -, rfl⟩
      · exact absurd ha hne
      · rw [hc] at hc'; cases hc'
      · rw [hc] at hc'; cases hc'
        exact ⟨some x, by simp⟩
      · rw [hc] at hc'; cases hc'
        exact ⟨none, by simp⟩
    · rcases fatal_events env tr hf e he with
        h | h | h | h | ⟨x, hne, hr, h | h⟩ | ⟨b, h⟩ | ⟨cfg', err', -, h | h⟩ | ⟨er', mgr, x, hea, h | h⟩
      · have := (recorderPrefix_quiet env e h).2.2.2.1
        simp [Event.isLog, hact] at this
      all_goals first | simp [h, onMain] at hact
      exact ⟨hne, rfl, x, hr, hact.symm⟩
  · obtain ⟨mpc, bpc, ⟨c, hmem, -⟩, -⟩ := main_facts env sched tr0 l hs
    obtain ⟨er, cfg, mgr, hea, hc, hm, hl, h0⟩ := ready_events env tr0 l hs
    have hq := ready_quiet env tr0 l hs
    have hmp := mainPost_props env l mpc
    have hbp := bgPost_props env c bpc
    have hlogm : ∀ e ∈ mainPost env l mpc, ∀ err,
        e.act ≠ .logError err "unable to create event recorder" := by
      cases mpc <;> simp [mainPost, onMain]
    have hlogb : ∀ e ∈ bgPost env c bpc, ∀ err,
        e.act ≠ .logError err "unable to create event recorder" := by
      cases bpc <;> simp [bgPost, onBg]
    have hrecm : ∀ e ∈ mainPost env l mpc, ∀ c' ctx req,
        e.act = .reconcile c' ctx req → c' = l.c := by
      cases mpc <;> simp [mainPost, onMain]
    have hsm : ∀ e ∈ mainPost env l mpc, ∀ c' mgr o err,
        e.act ≠ .setupWithManager c' mgr o err := by
      cases mpc <;> simp [mainPost, onMain]
    have hsb : ∀ e ∈ bgPost env c bpc, ∀ c' mgr o err,
        e.act ≠ .setupWithManager c' mgr o err := by
      cases bpc <;> simp [bgPost, onBg]
    have hlog0 : ∀ e ∈ (main env sched).trace, ∀ err,
        e.act ≠ .logError err "unable to create event recorder" := by
      intro e he err hact
      rcases (hmem e).mp he with h1 | h1 | h1
      · have := (hq e h1).2.2
        simp [Event.isLog, hact] at this
      · exact hlogm e h1 err hact
      · exact hlogb e h1 err hact
    refine ⟨fun ha => ⟨fun e he => ?_, hlog0, fun e he c' ctx req hact => ?_,
      fun e he c' mgr' o err hact => ?_, ?_, fun cfg' hc' => ?_⟩,
      fun e he err hact => absurd hact (hlog0 e he err)⟩
    · rcases (hmem e).mp he with h1 | h1 | h1
      · rcases (h0 e).mp h1 with h2 | h2 | h2 | h2 | h2 | h2 | h2
        · rcases recorderPrefix_mem env e h2 with h | ⟨hne, -⟩
          · simp [h, onMain, Event.isNewRecorder]
          · exact absurd ha hne
        all_goals simp [h2, onMain, Event.isNewRecorder]
      · exact (hmp e h1).2.2.2.2.2
      · exact (hbp e h1).2.2.2.2.2.2.2.2.2
    · rcases (hmem e).mp he with h1 | h1 | h1
      · have := (not_late e (hq e h1).1).1
        simp [Event.isReconcile, hact] at this
      · rw [hrecm e h1 c' ctx req hact, hl]
        simp [mkReconciler, hea ha]
      · have := (hbp e h1).2.1
        simp [Event.isReconcile, hact] at this
    · rcases (hmem e).mp he with h1 | h1 | h1
      · rcases (h0 e).mp h1 with h2 | h2 | h2 | h2 | h2 | h2 | h2
        · rcases recorderPrefix_mem env e h2 with h | ⟨-, h⟩ <;> simp [h, onMain] at hact
        all_goals simp [h2, onMain] at hact
        simp [← hact.1, mkReconciler, hea ha]
      · exact absurd hact (hsm e h1 c' mgr' o err)
      · exact absurd hact (hsb e h1 c' mgr' o err)
    · exact (hmem _).mpr (Or.inl ((h0 _).mpr (Or.inr (Or.inl rfl))))
    · rw [hc] at hc'; cases hc'
      exact ⟨none, (hmem _).mpr (Or.inl ((h0 _).mpr (Or.inr (Or.inr (Or.inr (Or.inl rfl))))))⟩

/-- C7, at a complete run with an empty `--events-addr`. -/
theorem empty_events_addr_disables_recorder_witness :
    demoEnv.eventsAddr = "" ∧
    (∀ e ∈ (main demoEnv schedToDone).trace, e.isNewRecorder = false) ∧
    (∃ e ∈ (main demoEnv schedToDone).trace, e.isReconcile = true) ∧
    (∀ e ∈ (main demoEnv schedToDone).trace, ∀ c ctx req,
      e.act = .reconcile c ctx req → c.ExternalEventRecorder = none) :=
  ⟨rfl, ((empty_events_addr_disables_recorder demoEnv schedToDone).1 rfl).1, by decide,
    ((empty_events_addr_disables_recorder demoEnv schedToDone).1 rfl).2.2.1⟩

/-- C8 fails as stated: in this complete run `Reconcile` returns an error, the
exit code is 0, and no log line is written. -/
theorem reconcile_error_not_logged_counterexample :
    onMain (.reconcileRet ⟨false, 0⟩ (some "reconcile failed")) ∈
      (main demoEnv schedToDone).trace ∧
    (∀ e ∈ (main demoEnv schedToDone).trace, e.isLog = false) ∧
    (main demoEnv schedToDone).exit = some 0 := by
  decide

/-- C8 (as amended). In every run in which `Reconcile` returns, with an error
or without, `main` writes no log line at all: the values `Reconcile` returns
are discarded.  The only log line such a run can hold is the goroutine's
"problem starting cache", which carries the error that the cache's `Start`
returned.  If the process is alive, `main` returns within two steps and the
exit code is 0. -/
theorem reconcile_outcome_is_discarded (env : Env) (sched : List Tid)
    (h : ∃ e ∈ (main env sched).trace, e.isReconcileRet = true) :
    (∀ e ∈ (main env sched).trace, e.tid = .main → e.isLog = false) ∧
    (∀ e ∈ (main env sched).trace, e.isLog = true →
      ∃ x, e = onBg (.logError (some x) "problem starting cache") ∧
        onBg (.cacheStartRet (some x)) ∈ (main env sched).trace) ∧
    ((main env sched).exit = none → (main env (sched ++ [.main, .main])).exit = some 0) := by
  rcases setup_cases env with ⟨tr, hs⟩ | ⟨tr0, l, hs⟩
  · exfalso
    rw [main_fatal env sched tr hs] at h
    have hq := fatal_quiet env tr (setup_fatal env tr hs)
    obtain ⟨e, he, hw⟩ := h
    simp [(not_late e (hq e he).1).2.1] at hw
  · obtain ⟨mpc, bpc, ⟨c, hmem, -, -, -, hside, -, hex, -⟩, hext⟩ :=
      main_facts env sched tr0 l hs
    obtain ⟨c2, -, -, -, -, -, -, hex2, -⟩ := hext [.main, .main]
    have hq := ready_quiet env tr0 l hs
    have hb := bgPost_props env c bpc
    have hw' : ∃ e ∈ mainPost env l mpc, e.isReconcileRet = true := by
      obtain ⟨e, he, hw⟩ := h
      rcases (hmem e).mp he with h1 | h1 | h1
      · simp [(not_late e (hq e h1).1).2.1] at hw
      · exact ⟨e, h1, hw⟩
      · simp [(hb e h1).2.2.1] at hw
    have hmpc : mpc = .cancelCall ∨ mpc = .ret ∨ mpc = .returned := by
      revert hw'
      cases mpc <;> simp [mainPost, onMain, Event.isReconcileRet]
    have hmlog : ∀ e ∈ mainPost env l mpc, e.isLog = false := by
      rcases hmpc with rfl | rfl | rfl <;> simp [mainPost, onMain, Event.isLog]
    have hblog : ∀ e ∈ bgPost env c bpc, e.isLog = true →
        ∃ x, e = onBg (.logError (some x) "problem starting cache") ∧
          onBg (.cacheStartRet (some x)) ∈ bgPost env c bpc := by
      revert hside
      cases bpc <;> simp [bgPost, bgSide, onBg, Event.isLog]
      all_goals
        intro hsome
        obtain ⟨x, hx⟩ := Option.isSome_iff_exists.mp hsome
        simp [hx]
    refine ⟨fun e he htid => ?_, fun e he hlog => ?_, fun halive => ?_⟩
    · rcases (hmem e).mp he with h1 | h1 | h1
      · exact (hq e h1).2.2
      · exact hmlog e h1
      · rw [(hb e h1).1] at htid
        cases htid
    · rcases (hmem e).mp he with h1 | h1 | h1
      · simp [(hq e h1).2.2] at hlog
      · simp [hmlog e h1] at hlog
      · obtain ⟨x, hx, hx'⟩ := hblog e h1 hlog
        exact ⟨x, hx, (hmem _).mpr (Or.inr (Or.inr hx'))⟩
    · rw [hex] at halive
      rw [hex2]
      rcases hmpc with rfl | rfl | rfl <;> revert halive <;>
        cases bpc <;> simp [exitAt, pcsAfter, stepPcs, nextPc]

/-- C8 as amended, at a run in which `Reconcile` has just returned an error. -/
theorem reconcile_outcome_is_discarded_witness :
    (∃ e ∈ (main demoEnv schedToReconciled).trace, e.isReconcileRet = true) ∧
    (∀ e ∈ (main demoEnv schedToReconciled).trace, e.tid = .main → e.isLog = false) ∧
    (main demoEnv schedToReconciled).exit = none ∧
    (main demoEnv (schedToReconciled ++ [.main, .main])).exit = some 0 :=
  ⟨by decide, (reconcile_outcome_is_discarded demoEnv schedToReconciled (by decide)).1,
    by decide,
    (reconcile_outcome_is_discarded demoEnv schedToReconciled (by decide)).2.2 (by decide)⟩

/-- C9. In every run that launches the goroutine: there is exactly one `go`
statement; the cache's `Start` is called at most once, and it is called and
returns on the goroutine only, after the launch; `WaitForCacheSync` is called
on `main` only, after the launch.  The call of `WaitForCacheSync` does not
wait for `Start`: whatever the goroutine has done so far, the next step of a
live `main` leaves the call of `WaitForCacheSync` in the trace; and under the
schedule goroutine, main, main, `Start` has been called and has not returned
when `WaitForCacheSync` is called and returns. -/
theorem one_goroutine_runs_start (env : Env) (sched : List Tid)
    (h : ∃ e ∈ (main env sched).trace, e.isGo = true) :
    (main env sched).trace.countP Event.isGo = 1 ∧
    (main env sched).trace.countP Event.isCacheStart ≤ 1 ∧
    (∀ e ∈ (main env sched).trace,
      e.isCacheStart = true ∨ e.isCacheStartRet = true → e.tid = .bg) ∧
    (∀ e ∈ (main env sched).trace, e.isWait = true → e.tid = .main) ∧
    Preceded Event.isGo Event.isCacheStart (main env sched).trace ∧
    Preceded Event.isGo Event.isWait (main env sched).trace ∧
    ((main env sched).exit = none →
      ∃ e ∈ (main env (sched ++ [.main])).trace, e.isWait = true) ∧
    (∃ pre, (∀ e ∈ pre, e.isCacheStart = false ∧ e.isCacheStartRet = false ∧
        e.isWait = false) ∧
      (main env [.bg, .main, .main]).trace = pre ++
        [onBg (.cacheStart (.withCancel .signalHandler)),
          onMain (.waitForCacheSync (.withCancel .signalHandler)),
          onMain (.waitForCacheSyncRet
            (env.waitForCacheSync (.withCancel .signalHandler)))]) := by
  obtain ⟨tr0, l, hs⟩ := go_requires_ready env sched h
  obtain ⟨mpc, bpc, ⟨c, hmem, hcnt, -, hprec0, -, -, hex, -⟩, hext⟩ :=
    main_facts env sched tr0 l hs
  obtain ⟨c2, hmem2, -⟩ := hext [.main]
  have hq := ready_quiet env tr0 l hs
  have hl : ∀ e ∈ tr0, e.isLate = false := fun e he => (hq e he).1
  have hb := bgPost_props env c bpc
  have hmp := mainPost_props env l mpc
  obtain ⟨hgo1, hgo⟩ := ready_go_count env tr0 l hs
  refine ⟨?_, ?_, ?_, ?_, ?_, ?_, ?_, ?_⟩
  · rw [hcnt, hgo1]
    have h1 : (mainPost env l mpc).countP Event.isGo = 0 := by
      simp only [List.countP_eq_zero]
      intro e he
      simp [(hmp e he).2.2.2.1]
    have h2 : (bgPost env c bpc).countP Event.isGo = 0 := by
      simp only [List.countP_eq_zero]
      intro e he
      simp [(hb e he).2.2.2.2.2.2.2.1]
    rw [h1, h2]
  · rw [hcnt, countP_zero_of_late tr0 _ hl (fun e h => (not_late e h).2.2.2.2.1)]
    have h1 : (mainPost env l mpc).countP Event.isCacheStart = 0 := by
      simp only [List.countP_eq_zero]
      intro e he
      simp [(hmp e he).2.1]
    rw [h1]
    cases bpc <;> simp [bgPost, onBg, Event.isCacheStart, List.countP_cons]
  · intro e he hor
    rcases (hmem e).mp he with h1 | h1 | h1
    · have := not_late e (hl e h1)
      rcases hor with h2 | h2
      · simp [this.2.2.2.2.1] at h2
      · simp [this.2.2.2.2.2.1] at h2
    · rcases hor with h2 | h2
      · simp [(hmp e h1).2.1] at h2
      · simp [(hmp e h1).2.2.1] at h2
    · exact (hb e h1).1
  · intro e he hw
    rcases (hmem e).mp he with h1 | h1 | h1
    · exact (hq e h1).2.1
    · exact (hmp e h1).1
    · simp [(hb e h1).2.2.2.1] at hw
  · exact hprec0 _ _ (fun e he => (not_late e (hl e he)).2.2.2.2.1) hgo
  · exact hprec0 _ _ (fun e he => (not_late e (hl e he)).2.2.1) hgo
  · intro halive
    rw [hex] at halive
    have : ∃ e ∈ mainPost env l (pcsAfter env l [.main] (mpc, bpc)).1, e.isWait = true := by
      revert halive
      cases mpc <;> cases bpc <;>
        simp [exitAt, pcsAfter, stepPcs, nextPc, mainPost, onMain, Event.isWait]
      all_goals
        cases env.waitForCacheSync l.cancelCtx <;> simp [mainPost, onMain, Event.isWait]
    obtain ⟨e, he, hw⟩ := this
    exact ⟨e, (hmem2 e).mpr (Or.inr (Or.inl he)), hw⟩
  · refine ⟨tr0, fun e he => ?_, overlap_schedule env tr0 l hs⟩
    have := not_late e (hl e he)
    exact ⟨this.2.2.2.2.1, this.2.2.2.2.2.1, this.2.2.1⟩

/-- C9, at a run in which the goroutine has been launched and nothing else has
happened. -/
theorem one_goroutine_runs_start_witness :
    (∃ e ∈ (main demoEnv []).trace, e.isGo = true) ∧
    (main demoEnv []).trace.countP Event.isGo = 1 ∧
    (main demoEnv []).exit = none ∧
    (∃ e ∈ (main demoEnv ([] ++ [.main])).trace, e.isWait = true) :=
  ⟨by decide, (one_goroutine_runs_start demoEnv [] (by decide)).1, by decide,
    (one_goroutine_runs_start demoEnv [] (by decide)).2.2.2.2.2.2.1 (by decide)⟩

/-- C10. In every run, the error that `main` passes to the log call "problem
starting cache" of line 126 is nil, and it is the error that
`SetupWithManager` returned (the last assignment of the variable `err`).  In
every run in which `WaitForCacheSync` returns false and the process is alive,
after the next step of `main` that log line, with a nil error, is in the
trace. -/
theorem sync_failure_log_has_nil_error (env : Env) (sched : List Tid) :
    (∀ e ∈ (main env sched).trace, e.tid = .main → ∀ err,
      e.act = .logError err "problem starting cache" →
        err = none ∧ ∃ c mgr o, onMain (.setupWithManager c mgr o err) ∈ (main env sched).trace) ∧
    ((∃ e ∈ (main env sched).trace, e.isWaitRet false = true) →
      (main env sched).exit = none →
        onMain (.logError none "problem starting cache") ∈
          (main env (sched ++ [.main])).trace) := by
  rcases setup_cases env with ⟨tr, hs⟩ | ⟨tr0, l, hs⟩
  · rw [main_fatal env sched tr hs]
    have hf := setup_fatal env tr hs
    have hq := fatal_quiet env tr hf
    refine ⟨fun e he _ err hact => ?_, ?_⟩
    · exfalso
      rcases fatal_events env tr hf e he with
        h | h | h | h | ⟨x, hne, -, h | h⟩ | ⟨b, h⟩ | ⟨cfg', err', -, h | h⟩ |
        ⟨er', mgr, x, hea, h | h⟩
      · have := (recorderPrefix_quiet env e h).2.2.2.1
        simp [Event.isLog, hact] at this
      all_goals simp [h, onMain] at hact
    · rintro ⟨e, he, hw⟩
      have := (not_late e (hq e he).1).2.2.2.1 false
      simp [this] at hw
  · obtain ⟨mpc, bpc, ⟨c, hmem, -, -, -, -, -, hex, -⟩, hext⟩ :=
      main_facts env sched tr0 l hs
    obtain ⟨c2, hmem2, -⟩ := hext [.main]
    obtain ⟨er, cfg, mgr, hea, hc, hm, hl, h0⟩ := ready_events env tr0 l hs
    have hq := ready_quiet env tr0 l hs
    have hbp := bgPost_props env c bpc
    have herr : l.err = none := by rw [hl]
    refine ⟨fun e he htid err hact => ?_, fun hw halive => ?_⟩
    · have : err = none := by
        rcases (hmem e).mp he with h1 | h1 | h1
        · have := (hq e h1).2.2
          simp [Event.isLog, hact] at this
        · have hm' : ∀ e ∈ mainPost env l mpc, ∀ err,
              e.act = .logError err "problem starting cache" → err = l.err := by
            cases mpc <;> simp [mainPost, onMain]
          rw [hm' e h1 err hact, herr]
        · rw [(hbp e h1).1] at htid
          cases htid
      subst this
      exact ⟨rfl, _, _, _, (hmem _).mpr (Or.inl ((h0 _).mpr
        (Or.inr (Or.inr (Or.inr (Or.inr (Or.inl rfl)))))))⟩
    · have hw' : ∃ e ∈ mainPost env l mpc, e.isWaitRet false = true := by
        obtain ⟨e, he, hw⟩ := hw
        rcases (hmem e).mp he with h1 | h1 | h1
        · have := (not_late e (hq e h1).1).2.2.2.1 false
          simp [this] at hw
        · exact ⟨e, h1, hw⟩
        · have := (hbp e h1).2.2.2.2.1 false
          simp [this] at hw
      rw [hex] at halive
      refine (hmem2 _).mpr (Or.inr (Or.inl ?_))
      rw [← herr]
      cases mpc <;> simp [mainPost, onMain, Event.isWaitRet] at hw' <;>
        cases bpc <;> simp [exitAt] at halive <;>
        simp [mainPost, onMain, exitAt, pcsAfter, stepPcs, nextPc]

/-- C10, at a run in which the sync has just failed. -/
theorem sync_failure_log_has_nil_error_witness :
    (∃ e ∈ (main demoSyncFails schedToSync).trace, e.isWaitRet false = true) ∧
    (main demoSyncFails schedToSync).exit = none ∧
    onMain (.logError none "problem starting cache") ∈
      (main demoSyncFails (schedToSync ++ [.main])).trace :=
  ⟨by decide, by decide,
    (sync_failure_log_has_nil_error demoSyncFails schedToSync).2 (by decide) (by decide)⟩

end DryRun
